import Mathlib

/-!
Shallow embedding of the core of the HSE financial-ledger application
(entities, repositories, caching proxy, commands, command history and the
balance reconciliation service), together with theorems checking the
specification's claims against it.

Modelling conventions:
* the C++ `Decimal` (an alias for `double`) is modelled as `ℚ`; the
  floating-point epsilon `0.001` used by `Money` is modelled as the exact
  rational `1/1000`;
* `DateTime` (a `std::chrono` time point) is modelled as a natural-number
  clock reading, threaded explicitly where the code calls `now()`;
* C++ exceptions are modelled by `Except Err`; a function that returns
  `.error e` corresponds to a call that throws, and the caller's state is
  the unmodified input state (the C++ code throws before mutating, or —
  in the one compensation path of `transfer` — restores the mutated value
  before the exception escapes the function);
* repositories (`std::unordered_map` guarded by a mutex) are modelled as
  association lists; all repository methods run under one exclusive lock
  in the source, so the sequential functional semantics is faithful.
-/

namespace Financial

/-- C++ `using Id = std::string` (common/types.h). -/
abbrev Id := String

/-- C++ `using Decimal = double`; modelled as the exact rationals. -/
abbrev Decimal := ℚ

/-- C++ `using DateTime = std::chrono::system_clock::time_point`;
modelled as a natural-number clock reading. -/
abbrev DateTime := Nat

/-- Error taxonomy of `common/exceptions.h`: `ValidationException`,
`DomainException`, `EntityNotFoundException`, `InsufficientFundsException`
(which carries the requested and available amounts), and the plain
`std::runtime_error` used by the command layer. -/
inductive Err where
  | validation (msg : String)
  | domain (msg : String)
  | notFound (entityType : String) (id : Id)
  | insufficientFunds (requested available : Decimal)
  | runtimeError (msg : String)
deriving DecidableEq

instance {ε α : Type} [DecidableEq ε] [DecidableEq α] : DecidableEq (Except ε α) :=
  fun a b =>
    match a, b with
    | .ok x, .ok y =>
      if h : x = y then .isTrue (by rw [h]) else .isFalse (by simp [h])
    | .error e, .error f =>
      if h : e = f then .isTrue (by rw [h]) else .isFalse (by simp [h])
    | .ok _, .error _ => .isFalse (by simp)
    | .error _, .ok _ => .isFalse (by simp)

/-- `Validator::validateNotEmpty` (common/validation.h). -/
def Validator.validateNotEmpty (value fieldName : String) : Except Err Unit :=
  if value = "" then .error (.validation (fieldName ++ " cannot be empty")) else .ok ()

/-- `Validator::validatePositive`. -/
def Validator.validatePositive (value : Decimal) (fieldName : String) : Except Err Unit :=
  if value ≤ 0 then .error (.validation (fieldName ++ " must be positive")) else .ok ()

/-- `Validator::validateNonNegative`. -/
def Validator.validateNonNegative (value : Decimal) (fieldName : String) : Except Err Unit :=
  if value < 0 then .error (.validation (fieldName ++ " cannot be negative")) else .ok ()

/-- `Validator::validateMaxLength`. -/
def Validator.validateMaxLength (value : String) (maxLength : Nat) (fieldName : String) :
    Except Err Unit :=
  if maxLength < value.length then
    .error (.validation (fieldName ++ " exceeds maximum length"))
  else .ok ()

/-- A character allowed by the id regex `^[a-zA-Z0-9-]+$`. -/
def Validator.isIdChar (c : Char) : Bool := c.isAlphanum || c = '-'

/-- `Validator::validateId`: non-empty and all characters in `[a-zA-Z0-9-]`. -/
def Validator.validateId (id : Id) : Except Err Unit :=
  match Validator.validateNotEmpty id "ID" with
  | .error e => .error e
  | .ok _ =>
    if id.data.all Validator.isIdChar then .ok ()
    else .error (.validation "Invalid ID format")

/-- A hexadecimal digit, as accepted by the color regex. -/
def Validator.isHexDigit (c : Char) : Bool :=
  c.isDigit || ('a' ≤ c && c ≤ 'f') || ('A' ≤ c && c ≤ 'F')

/-- `Validator::validateColor`: regex `^#[0-9A-Fa-f]{3}([0-9A-Fa-f]{3})?$`. -/
def Validator.validateColor (color : String) : Except Err Unit :=
  match Validator.validateNotEmpty color "Color" with
  | .error e => .error e
  | .ok _ =>
    match color.data with
    | '#' :: rest =>
      if (rest.length = 3 || rest.length = 6) && rest.all Validator.isHexDigit then .ok ()
      else .error (.validation "Invalid color format")
    | _ => .error (.validation "Invalid color format")

/-- The epsilon used by `Money` for approximate equality and `isZero`.
The C++ source uses the double literal `0.001`; modelled exactly. -/
def moneyEps : Decimal := 1 / 1000

/-- `Money` (domain/value_objects/money.h): a currency-tagged amount. -/
structure Money where
  amount : Decimal
  currency : String
deriving DecidableEq, Inhabited

/-- The validated `Money(amount, currency)` constructor: currency must be
non-empty and at most 3 characters. -/
def Money.make (amount : Decimal) (currency : String) : Except Err Money :=
  match Validator.validateNotEmpty currency "Currency" with
  | .error e => .error e
  | .ok _ =>
    match Validator.validateMaxLength currency 3 "Currency" with
    | .error e => .error e
    | .ok _ => .ok ⟨amount, currency⟩

/-- `Money::add`: requires equal currencies, then re-enters the validated
constructor with the sum. -/
def Money.add (a b : Money) : Except Err Money :=
  if a.currency ≠ b.currency then
    .error (.validation "Cannot add money with different currencies")
  else Money.make (a.amount + b.amount) a.currency

/-- `Money::subtract`. -/
def Money.subtract (a b : Money) : Except Err Money :=
  if a.currency ≠ b.currency then
    .error (.validation "Cannot subtract money with different currencies")
  else Money.make (a.amount - b.amount) a.currency

/-- `Money::multiply` (no currency check; re-enters the constructor). -/
def Money.multiply (a : Money) (factor : Decimal) : Except Err Money :=
  Money.make (a.amount * factor) a.currency

/-- `Money::isPositive`. -/
def Money.isPositive (a : Money) : Bool := decide (0 < a.amount)

/-- `Money::isNegative`. -/
def Money.isNegative (a : Money) : Bool := decide (a.amount < 0)

/-- `Money::isZero`. -/
def Money.isZero (a : Money) : Bool := decide (|a.amount| < moneyEps)

/-- `Money::equals` / `operator==`: absolute difference below the epsilon
and equal currency codes. -/
def Money.equals (a b : Money) : Bool :=
  decide (|a.amount - b.amount| < moneyEps) && a.currency == b.currency

/-- `Money::operator<`: throws on a currency mismatch, otherwise compares
the amounts. -/
def Money.ltM (a b : Money) : Except Err Bool :=
  if a.currency ≠ b.currency then
    .error (.validation "Cannot compare money with different currencies")
  else .ok (decide (a.amount < b.amount))

/-- `Money::zero(currency)` goes through the validated constructor. -/
def Money.zeroM (currency : String) : Except Err Money :=
  Money.make 0 currency

/-- One entropy draw of `IdGenerator::generate` (common/utils.h, the
second document inside src/src/main.cpp): the `time_t` read from the
system clock at the call, and the eight draws of
`std::uniform_int_distribution<>(0, 15)` from the Mersenne twister. -/
structure IdSeed where
  time : Nat
  digits : Fin 8 → Fin 16

instance : Inhabited IdSeed := ⟨⟨0, fun _ => 0⟩⟩

/-- The eight random hex characters of one generator call: each draw is
an int in `0..15` printed in hex as a single character. -/
def IdGenerator.randPart (s : IdSeed) : List Char :=
  List.ofFn (fun i : Fin 8 => Nat.digitChar (s.digits i).val)

/-- `IdGenerator::generate(prefix)` (common/utils.h): a non-empty prefix
is emitted followed by a dash, then the current `time_t` in lowercase hex
(`ss << std::hex << time_t` prints no leading zeros, and `0` for zero —
exactly `Nat.toDigits 16`), a dash, and the eight random hex digits.  The
two entropy sources (the clock reading and the random draws) are passed
explicitly as an `IdSeed`; a run supplies one seed per call through an
oracle `Nat → IdSeed` indexed by the process-wide call count.  Note that
nothing makes distinct calls return distinct ids: two calls in the same
second that draw the same eight digits collide. -/
def IdGenerator.generate (pfx : String) (s : IdSeed) : Id :=
  String.mk ((if pfx = "" then [] else pfx.data ++ ['-']) ++
    (Nat.toDigits 16 s.time ++ '-' :: IdGenerator.randPart s))

/-- An id oracle whose same-prefix ids never collide across distinct
calls.  The real generator does not guarantee this — the amended
reconciliation claim assumes it explicitly. -/
def IdGenerator.EnvInj (env : Nat → IdSeed) : Prop :=
  ∀ pfx i j, IdGenerator.generate pfx (env i) = IdGenerator.generate pfx (env j) → i = j

/-- `OperationType` (domain/value_objects/types.h). -/
inductive OperationType where
  | income
  | expense
deriving DecidableEq, Inhabited

/-- `CategoryType`. -/
inductive CategoryType where
  | income
  | expense
deriving DecidableEq, Inhabited

/-- `BankAccount` (domain/entities/bank_account.h). -/
structure BankAccount where
  id : Id
  name : String
  balance : Money
  accountNumber : String
  isActive : Bool
  createdAt : DateTime
  updatedAt : DateTime
  currency : String
deriving DecidableEq, Inhabited

/-- The `BankAccount` constructor: sets `currency_` from the initial
balance, stamps both timestamps with `now()`, and runs `validate()`
(id format, non-empty name of length ≤ 100, account number length ≤ 20).
The constructor itself does not check the sign of the initial balance. -/
def BankAccount.create (id : Id) (name : String) (initialBalance : Money)
    (accountNumber : String) (isActive : Bool) (now : DateTime) :
    Except Err BankAccount :=
  match Validator.validateId id with
  | .error e => .error e
  | .ok _ =>
  match Validator.validateNotEmpty name "Account name" with
  | .error e => .error e
  | .ok _ =>
  match Validator.validateMaxLength name 100 "Account name" with
  | .error e => .error e
  | .ok _ =>
  match Validator.validateMaxLength accountNumber 20 "Account number" with
  | .error e => .error e
  | .ok _ =>
    .ok { id := id, name := name, balance := initialBalance,
          accountNumber := accountNumber, isActive := isActive,
          createdAt := now, updatedAt := now,
          currency := initialBalance.currency }

/-- `BankAccount::deposit`: active account, matching currency, positive
amount, then `balance_ = balance_.add(amount)` and a timestamp refresh. -/
def BankAccount.deposit (acc : BankAccount) (amount : Money) (now : DateTime) :
    Except Err BankAccount :=
  if ¬acc.isActive then .error (.domain "Cannot deposit to inactive account")
  else if amount.currency ≠ acc.currency then .error (.validation "Currency mismatch")
  else if ¬amount.isPositive then .error (.validation "Deposit amount must be positive")
  else
    match acc.balance.add amount with
    | .error e => .error e
    | .ok b => .ok { acc with balance := b, updatedAt := now }

/-- `BankAccount::withdraw`: active account, matching currency, positive
amount, sufficient funds (`balance_ < amount` raises
`InsufficientFundsException(amount, balance)`), then
`balance_ = balance_.subtract(amount)` and a timestamp refresh. -/
def BankAccount.withdraw (acc : BankAccount) (amount : Money) (now : DateTime) :
    Except Err BankAccount :=
  if ¬acc.isActive then .error (.domain "Cannot withdraw from inactive account")
  else if amount.currency ≠ acc.currency then .error (.validation "Currency mismatch")
  else if ¬amount.isPositive then .error (.validation "Withdrawal amount must be positive")
  else
    match acc.balance.ltM amount with
    | .error e => .error e
    | .ok true => .error (.insufficientFunds amount.amount acc.balance.amount)
    | .ok false =>
      match acc.balance.subtract amount with
      | .error e => .error e
      | .ok b => .ok { acc with balance := b, updatedAt := now }

/-- `BankAccount::transfer`: both accounts active, distinct ids, withdraw
from the source, deposit into the target; if the deposit throws, the
amount is credited back to the source before the exception is rethrown
(and if that compensating deposit itself throws, its exception escapes
instead).  Returns the (source, target) pair after a successful run;
the C++ method mutates the two shared account objects in place, so an
error return leaves the repository-visible balances at their original
values, matching this functional reading. -/
def BankAccount.transfer (src tgt : BankAccount) (amount : Money) (now : DateTime) :
    Except Err (BankAccount × BankAccount) :=
  if ¬(src.isActive && tgt.isActive) then
    .error (.domain "Both accounts must be active for transfer")
  else if src.id = tgt.id then
    .error (.validation "Cannot transfer to the same account")
  else
    match src.withdraw amount now with
    | .error e => .error e
    | .ok src' =>
      match tgt.deposit amount now with
      | .ok tgt' => .ok (src', tgt')
      | .error e =>
        match src'.deposit amount now with
        | .ok _ => .error e
        | .error e2 => .error e2

/-- `BankAccount::canWithdraw`. -/
def BankAccount.canWithdraw (acc : BankAccount) (amount : Money) : Bool :=
  acc.isActive && decide (amount.amount ≤ acc.balance.amount) &&
    (amount.currency == acc.currency)

/-- `BankAccount::recalculateBalance`: currency must match, then the stored
balance is overwritten with `newBalance` and the timestamp refreshed. -/
def BankAccount.recalculateBalance (acc : BankAccount) (newBalance : Money)
    (now : DateTime) : Except Err BankAccount :=
  if newBalance.currency ≠ acc.currency then
    .error (.validation "Currency mismatch during recalculation")
  else .ok { acc with balance := newBalance, updatedAt := now }

/-- `Operation` (domain/entities/operation.h). -/
structure Operation where
  id : Id
  type : OperationType
  bankAccountId : Id
  amount : Money
  date : DateTime
  description : String
  categoryId : Id
  createdAt : DateTime
  updatedAt : DateTime
  isRecurring : Bool
  recurringPattern : String
deriving DecidableEq, Inhabited

/-- The `Operation` constructor with its `validate()`: id formats, strictly
positive amount, description length ≤ 500. -/
def Operation.create (id : Id) (type : OperationType) (bankAccountId : Id)
    (amount : Money) (date : DateTime) (categoryId : Id) (description : String)
    (isRecurring : Bool) (recurringPattern : String) (now : DateTime) :
    Except Err Operation :=
  match Validator.validateId id with
  | .error e => .error e
  | .ok _ =>
  match Validator.validateId bankAccountId with
  | .error e => .error e
  | .ok _ =>
  match Validator.validateId categoryId with
  | .error e => .error e
  | .ok _ =>
  if ¬amount.isPositive then .error (.validation "Operation amount must be positive")
  else
  match Validator.validateMaxLength description 500 "Operation description" with
  | .error e => .error e
  | .ok _ =>
    .ok { id := id, type := type, bankAccountId := bankAccountId,
          amount := amount, date := date, description := description,
          categoryId := categoryId, createdAt := now, updatedAt := now,
          isRecurring := isRecurring, recurringPattern := recurringPattern }

/-- `Operation::isIncome`. -/
def Operation.isIncome (op : Operation) : Bool := op.type == OperationType.income

/-- `Operation::isExpense`. -/
def Operation.isExpense (op : Operation) : Bool := op.type == OperationType.expense

/-- `Category` (the category entity source file). -/
structure Category where
  id : Id
  type : CategoryType
  name : String
  description : String
  color : String
  icon : String
deriving DecidableEq, Inhabited

/-- The `Category` constructor with its `validate()`. -/
def Category.create (id : Id) (type : CategoryType) (name description color icon : String) :
    Except Err Category :=
  match Validator.validateId id with
  | .error e => .error e
  | .ok _ =>
  match Validator.validateColor color with
  | .error e => .error e
  | .ok _ =>
  match Validator.validateNotEmpty name "Category name" with
  | .error e => .error e
  | .ok _ =>
  match Validator.validateMaxLength name 50 "Category name" with
  | .error e => .error e
  | .ok _ =>
  match Validator.validateMaxLength description 200 "Category description" with
  | .error e => .error e
  | .ok _ =>
    .ok { id := id, type := type, name := name, description := description,
          color := color, icon := icon }

/-- `EntityFactory::createBankAccount`: validates the name (non-empty,
≤ 100) and that the initial balance is non-negative, then constructs a
`BankAccount` with a generated `"ACC"` id.  `seed` is the generator
call's entropy draw and `now` the clock reading. -/
def EntityFactory.createBankAccount (name : String) (initialBalance : Money)
    (accountNumber : String) (seed : IdSeed) (now : DateTime) : Except Err BankAccount :=
  match Validator.validateNotEmpty name "Account name" with
  | .error e => .error e
  | .ok _ =>
  match Validator.validateMaxLength name 100 "Account name" with
  | .error e => .error e
  | .ok _ =>
  match Validator.validateNonNegative initialBalance.amount "Initial balance" with
  | .error e => .error e
  | .ok _ =>
    BankAccount.create (IdGenerator.generate "ACC" seed) name initialBalance
      accountNumber true now

/-- `EntityFactory::createCategory`: name non-empty and ≤ 50, description
≤ 500, then a `Category` with a generated `"CAT"` id and the default
color `#000000` and icon `default`. -/
def EntityFactory.createCategory (type : CategoryType) (name description : String)
    (seed : IdSeed) : Except Err Category :=
  match Validator.validateNotEmpty name "Category name" with
  | .error e => .error e
  | .ok _ =>
  match Validator.validateMaxLength name 50 "Category name" with
  | .error e => .error e
  | .ok _ =>
  match Validator.validateMaxLength description 500 "Category description" with
  | .error e => .error e
  | .ok _ =>
    Category.create (IdGenerator.generate "CAT" seed) type name description "#000000" "default"

/-- `EntityFactory::createOperation`: validates the account and category
ids, that the amount is strictly positive and the description length,
then constructs an `Operation` with a generated `"OP"` id. -/
def EntityFactory.createOperation (type : OperationType) (bankAccountId : Id)
    (amount : Money) (categoryId : Id) (description : String) (date : DateTime)
    (seed : IdSeed) (now : DateTime) : Except Err Operation :=
  match Validator.validateId bankAccountId with
  | .error e => .error e
  | .ok _ =>
  match Validator.validateId categoryId with
  | .error e => .error e
  | .ok _ =>
  match Validator.validatePositive amount.amount "Operation amount" with
  | .error e => .error e
  | .ok _ =>
  match Validator.validateMaxLength description 500 "Operation description" with
  | .error e => .error e
  | .ok _ =>
    Operation.create (IdGenerator.generate "OP" seed) type bankAccountId amount
      date categoryId description false "" now

/-- First-match lookup in an association list, as `unordered_map::find`. -/
def listFind? {α : Type} (l : List (Id × α)) (k : Id) : Option α :=
  match l.find? (fun p => p.1 == k) with
  | some p => some p.2
  | none => none

/-- `storage_[id] = entity` on an `unordered_map`: replace the binding for
`k` if present, otherwise add a new one. -/
def listUpsert {α : Type} (l : List (Id × α)) (k : Id) (v : α) : List (Id × α) :=
  match l with
  | [] => [(k, v)]
  | p :: rest => if p.1 = k then (k, v) :: rest else p :: listUpsert rest k v

/-- `storage_.erase(id)`. -/
def listErase {α : Type} (l : List (Id × α)) (k : Id) : List (Id × α) :=
  l.filter (fun p => ¬(p.1 = k))

/-- The `entity->getId()` method used by the generic repository template. -/
class HasId (T : Type) where
  getId : T → Id

instance : HasId BankAccount := ⟨BankAccount.id⟩
instance : HasId Operation := ⟨Operation.id⟩
instance : HasId Category := ⟨Category.id⟩

/-- `InMemoryRepository<T>` (infrastructure/persistence/in_memory_repository.h):
a keyed store.  Every method runs under the repository's exclusive lock in
the source, so plain sequential semantics is faithful. -/
structure Repo (T : Type) where
  storage : List (Id × T)
deriving DecidableEq, Inhabited

/-- The empty repository. -/
def Repo.empty {T : Type} : Repo T := ⟨[]⟩

/-- `save`: insert or overwrite, last write wins. -/
def Repo.save {T : Type} [HasId T] (r : Repo T) (entity : T) : Repo T :=
  ⟨listUpsert r.storage (HasId.getId entity) entity⟩

/-- `findById`. -/
def Repo.findById {T : Type} (r : Repo T) (id : Id) : Option T :=
  listFind? r.storage id

/-- `update`: `EntityNotFoundException("Entity", id)` if no entity with
that id exists, otherwise overwrite the stored entity. -/
def Repo.update {T : Type} [HasId T] (r : Repo T) (entity : T) : Except Err (Repo T) :=
  match r.findById (HasId.getId entity) with
  | none => .error (.notFound "Entity" (HasId.getId entity))
  | some _ => .ok (r.save entity)

/-- `remove`: idempotent erase by id. -/
def Repo.remove {T : Type} (r : Repo T) (id : Id) : Repo T :=
  ⟨listErase r.storage id⟩

/-- `findAll`. -/
def Repo.findAll {T : Type} (r : Repo T) : List T :=
  r.storage.map Prod.snd

/-- `count`. -/
def Repo.count {T : Type} (r : Repo T) : Nat := r.storage.length

/-- `InMemoryOperationRepository::findByAccount`: filter by account id,
then sort by date descending (`a->getDate() > b->getDate()`); the sort of
an unordered snapshot is modelled by insertion sort, which computes a
date-nonincreasing permutation exactly as `std::sort` does. -/
def Repo.findByAccount (r : Repo Operation) (accountId : Id) : List Operation :=
  List.insertionSort (fun a b => b.date ≤ a.date)
    ((r.storage.filter (fun p => p.2.bankAccountId == accountId)).map Prod.snd)

/-- `InMemoryCategoryRepository::findByName`: first entry with that name. -/
def Repo.findByName (r : Repo Category) (name : String) : Option Category :=
  match r.storage.find? (fun p => p.2.name == name) with
  | some p => some p.2
  | none => none

/-- `CacheEntry<T>` of the caching proxy: a value plus its expiry time. -/
structure CacheEntry (T : Type) where
  data : T
  expiry : DateTime
deriving DecidableEq, Inhabited

/-- `CacheEntry::isExpired`: `now() > expiry`. -/
def CacheEntry.isExpired {T : Type} (e : CacheEntry T) (now : DateTime) : Bool :=
  decide (e.expiry < now)

/-- `CachingRepositoryProxy<T>`: a repository plus a keyed cache with a
configurable entry lifetime. -/
structure CachingProxy (T : Type) where
  repo : Repo T
  cache : List (Id × CacheEntry T)
  cacheDuration : Nat
deriving DecidableEq, Inhabited

/-- `cacheEntity`: store the entity with expiry `now + cacheDuration`. -/
def CachingProxy.cacheEntity {T : Type} [HasId T] (p : CachingProxy T) (entity : T)
    (now : DateTime) : CachingProxy T :=
  let entry : CacheEntry T := CacheEntry.mk entity (now + p.cacheDuration)
  { p with cache := listUpsert p.cache (HasId.getId entity) entry }

/-- `CachingRepositoryProxy::save`: write through, then refresh the cache. -/
def CachingProxy.save {T : Type} [HasId T] (p : CachingProxy T) (entity : T)
    (now : DateTime) : CachingProxy T :=
  CachingProxy.cacheEntity { p with repo := p.repo.save entity } entity now

/-- `CachingRepositoryProxy::update`: write through to the repository
(which may raise `NotFound`), then refresh the cache entry. -/
def CachingProxy.update {T : Type} [HasId T] (p : CachingProxy T) (entity : T)
    (now : DateTime) : Except Err (CachingProxy T) :=
  match p.repo.update entity with
  | .error e => .error e
  | .ok r => .ok (CachingProxy.cacheEntity { p with repo := r } entity now)

/-- `CachingRepositoryProxy::remove`: write through, then evict. -/
def CachingProxy.remove {T : Type} (p : CachingProxy T) (id : Id) : CachingProxy T :=
  { p with repo := p.repo.remove id, cache := listErase p.cache id }

/-- `CachingRepositoryProxy::findById`: return an unexpired cached entry
without touching the repository; otherwise fetch from the repository and,
on a hit, populate the cache with a fresh expiry.  Returns the answer and
the proxy's new state. -/
def CachingProxy.findById {T : Type} [HasId T] (p : CachingProxy T) (id : Id)
    (now : DateTime) : Option T × CachingProxy T :=
  match listFind? p.cache id with
  | some entry =>
    if ¬entry.isExpired now then (some entry.data, p)
    else
      match p.repo.findById id with
      | some e => (some e, p.cacheEntity e now)
      | none => (none, p)
  | none =>
    match p.repo.findById id with
    | some e => (some e, p.cacheEntity e now)
    | none => (none, p)

/-- The mutable state the command layer operates on: the three entity
repositories, the count of `IdGenerator::generate` calls made so far
(used to index the entropy oracle `Nat → IdSeed`; see
`IdGenerator.generate`), and the clock. -/
structure World where
  accounts : Repo BankAccount
  categories : Repo Category
  operations : Repo Operation
  nextId : Nat
  clock : DateTime
deriving DecidableEq, Inhabited

/-- The state at process start: empty repositories, counter at zero. -/
def World.empty : World := ⟨Repo.empty, Repo.empty, Repo.empty, 0, 0⟩

/-- `OperationProcessingService::processOperation`: look up the target
account (`NotFound` if absent), deposit for an income operation and
withdraw for an expense one, then persist the operation and the account.
The C++ service mutates the shared account object and then calls
`update`; the nested-match order matches the source's statement order. -/
def processOperation (w : World) (op : Operation) : Except Err World :=
  match w.accounts.findById op.bankAccountId with
  | none => .error (.notFound "BankAccount" op.bankAccountId)
  | some account =>
    match (if op.isIncome then account.deposit op.amount w.clock
           else account.withdraw op.amount w.clock) with
    | .error e => .error e
    | .ok account' =>
      match Repo.update w.accounts account' with
      | .error e => .error e
      | .ok accRepo =>
        .ok { w with operations := w.operations.save op, accounts := accRepo }

/-- The discrepancy record returned by the reconciliation service. -/
structure AccountBalance where
  accountId : Id
  accountName : String
  balance : Money
  calculatedBalance : Money
  hasDiscrepancy : Bool
deriving DecidableEq, Inhabited

/-- One step of the reconciliation fold:
`calculated = calculated.add/subtract(op.getAmount())`. -/
def reconcileStep (acc : Money) (op : Operation) : Except Err Money :=
  if op.isIncome then acc.add op.amount else acc.subtract op.amount

/-- `BalanceReconciliationService::checkAccountBalance`: `NotFound` for an
absent account, otherwise fold all of the account's operations into a
calculated balance starting from `Money::zero(currency)` and compare it
with the stored balance under `Money` equality. -/
def checkAccountBalance (w : World) (accountId : Id) : Except Err AccountBalance :=
  match w.accounts.findById accountId with
  | none => .error (.notFound "BankAccount" accountId)
  | some account =>
    match Money.zeroM account.currency with
    | .error e => .error e
    | .ok z =>
      match (w.operations.findByAccount accountId).foldlM reconcileStep z with
      | .error e => .error e
      | .ok calculated =>
        .ok { accountId := accountId, accountName := account.name,
              balance := account.balance, calculatedBalance := calculated,
              hasDiscrepancy := !(account.balance.equals calculated) }

/-- `CreateAccountCommand` (application/commands/commands.h): its
parameters, the created-account slot, and the `BaseCommand` executed
flag. -/
structure CreateAccountCommand where
  accountName : String
  initialBalance : Money
  accountNumber : String
  createdAccount : Option BankAccount
  executed : Bool
deriving DecidableEq, Inhabited

/-- A freshly constructed `CreateAccountCommand`. -/
def CreateAccountCommand.fresh (accountName : String) (initialBalance : Money)
    (accountNumber : String) : CreateAccountCommand :=
  ⟨accountName, initialBalance, accountNumber, none, false⟩

/-- `CreateAccountCommand::doExecute`: factory-validated construction,
then `save` into the account repository.  `env` supplies the entropy of
each generator call by call index. -/
def CreateAccountCommand.doExecute (c : CreateAccountCommand) (env : Nat → IdSeed)
    (w : World) : Except Err (CreateAccountCommand × World) :=
  match EntityFactory.createBankAccount c.accountName c.initialBalance
      c.accountNumber (env w.nextId) w.clock with
  | .error e => .error e
  | .ok acc =>
    .ok ({ c with createdAccount := some acc },
         { w with nextId := w.nextId + 1, accounts := w.accounts.save acc })

/-- `CreateAccountCommand::doUndo`: remove the created account's id. -/
def CreateAccountCommand.doUndo (c : CreateAccountCommand) (w : World) :
    Except Err (CreateAccountCommand × World) :=
  match c.createdAccount with
  | some acc =>
    .ok ({ c with createdAccount := none },
         { w with accounts := w.accounts.remove acc.id })
  | none => .ok (c, w)

/-- `BaseCommand::execute` for `CreateAccountCommand`: fails if already
executed, otherwise runs `doExecute` and sets the flag. -/
def CreateAccountCommand.execute (c : CreateAccountCommand) (env : Nat → IdSeed)
    (w : World) : Except Err (CreateAccountCommand × World) :=
  if c.executed then .error (.runtimeError "command already executed")
  else
    match c.doExecute env w with
    | .error e => .error e
    | .ok (c', w') => .ok ({ c' with executed := true }, w')

/-- `AddOperationCommand`: parameters plus the created-operation slot, the
captured account (the C++ field is a `shared_ptr` aliasing the repository
entry; here it holds that entry's value as of the end of `doExecute`),
the pre-mutation balance snapshot and the executed flag.  The C++
`previousBalance_` member is default-constructed before `doExecute`
assigns it; the default `Money()` leaves an empty currency code. -/
structure AddOperationCommand where
  type : OperationType
  bankAccountId : Id
  amount : Money
  categoryId : Id
  description : String
  createdOperation : Option Operation
  account : Option BankAccount
  previousBalance : Money
  executed : Bool
deriving DecidableEq, Inhabited

/-- A freshly constructed `AddOperationCommand`. -/
def AddOperationCommand.fresh (type : OperationType) (bankAccountId : Id)
    (amount : Money) (categoryId : Id) (description : String) : AddOperationCommand :=
  ⟨type, bankAccountId, amount, categoryId, description, none, none,
   Money.mk 0 "", false⟩

/-- `AddOperationCommand::doExecute`: look up the target account
(`NotFound` if absent), snapshot its balance, build the operation through
the factory, and run it through the processing service.  The captured
account value is the repository entry after the mutation, which is what
the C++ `account_` pointer refers to from this moment on. -/
def AddOperationCommand.doExecute (c : AddOperationCommand) (env : Nat → IdSeed)
    (w : World) : Except Err (AddOperationCommand × World) :=
  match w.accounts.findById c.bankAccountId with
  | none => .error (.notFound "BankAccount" c.bankAccountId)
  | some account =>
    match EntityFactory.createOperation c.type c.bankAccountId c.amount
        c.categoryId c.description w.clock (env w.nextId) w.clock with
    | .error e => .error e
    | .ok op =>
      match processOperation { w with nextId := w.nextId + 1 } op with
      | .error e => .error e
      | .ok w' =>
        let c' := { c with createdOperation := some op,
                           account := w'.accounts.findById c.bankAccountId,
                           previousBalance := account.balance }
        .ok (c', w')

/-- `AddOperationCommand::doUndo`: if an operation was created and an
account captured, remove the operation, overwrite the account's balance
with the snapshot via `recalculateBalance`, and `update` the account. -/
def AddOperationCommand.doUndo (c : AddOperationCommand) (w : World) :
    Except Err (AddOperationCommand × World) :=
  match c.createdOperation, c.account with
  | some op, some acc =>
    match acc.recalculateBalance c.previousBalance w.clock with
    | .error e => .error e
    | .ok acc' =>
      match Repo.update w.accounts acc' with
      | .error e => .error e
      | .ok accRepo =>
        .ok ({ c with createdOperation := none },
             { w with operations := w.operations.remove op.id, accounts := accRepo })
  | _, _ => .ok (c, w)

/-- `BaseCommand::execute` for `AddOperationCommand`. -/
def AddOperationCommand.execute (c : AddOperationCommand) (env : Nat → IdSeed)
    (w : World) : Except Err (AddOperationCommand × World) :=
  if c.executed then .error (.runtimeError "command already executed")
  else
    match c.doExecute env w with
    | .error e => .error e
    | .ok (c', w') => .ok ({ c' with executed := true }, w')

/-- `BaseCommand::undo` for `AddOperationCommand`: fails if not executed
(`canUndo` is statically `true` for this command), then runs `doUndo` and
clears the flag. -/
def AddOperationCommand.undo (c : AddOperationCommand) (w : World) :
    Except Err (AddOperationCommand × World) :=
  if ¬c.executed then .error (.runtimeError "command not executed")
  else
    match c.doUndo w with
    | .error e => .error e
    | .ok (c', w') => .ok ({ c' with executed := false }, w')

/-- `TransferCommand`: parameters plus the two created-operation slots and
the executed flag. -/
structure TransferCommand where
  fromAccountId : Id
  toAccountId : Id
  amount : Money
  description : String
  withdrawOperation : Option Operation
  depositOperation : Option Operation
  executed : Bool
deriving DecidableEq, Inhabited

/-- A freshly constructed `TransferCommand` (default description is the
source's literal "Перевод"). -/
def TransferCommand.fresh (fromAccountId toAccountId : Id) (amount : Money) :
    TransferCommand :=
  ⟨fromAccountId, toAccountId, amount, "Перевод", none, none, false⟩

/-- The lookup-or-create of the shared "Перевод" category used by
`TransferCommand::doExecute`. -/
def resolveTransferCategory (env : Nat → IdSeed) (w : World) :
    Except Err (Category × World) :=
  match w.categories.findByName "Перевод" with
  | some cat => .ok (cat, w)
  | none =>
    match EntityFactory.createCategory CategoryType.expense "Перевод"
        "Переводы между счетами" (env w.nextId) with
    | .error e => .error e
    | .ok cat =>
      let w' := { w with nextId := w.nextId + 1,
                         categories := w.categories.save cat }
      .ok (cat, w')

/-- `TransferCommand::doExecute`: look up both accounts (`NotFound` names
the first missing one), run the domain-level transfer, update both
accounts, resolve or create the shared category, then record an expense
operation on the source and an income operation on the destination. -/
def TransferCommand.doExecute (c : TransferCommand) (env : Nat → IdSeed)
    (w : World) : Except Err (TransferCommand × World) :=
  match w.accounts.findById c.fromAccountId, w.accounts.findById c.toAccountId with
  | none, _ => .error (.notFound "BankAccount" c.fromAccountId)
  | some _, none => .error (.notFound "BankAccount" c.toAccountId)
  | some fromAccount, some toAccount =>
    match fromAccount.transfer toAccount c.amount w.clock with
    | .error e => .error e
    | .ok (fromAccount', toAccount') =>
      match Repo.update w.accounts fromAccount' with
      | .error e => .error e
      | .ok accRepo =>
        match Repo.update accRepo toAccount' with
        | .error e => .error e
        | .ok accRepo' =>
          match resolveTransferCategory env { w with accounts := accRepo' } with
          | .error e => .error e
          | .ok (category, w₁) =>
            match EntityFactory.createOperation OperationType.expense
                c.fromAccountId c.amount category.id c.description w₁.clock
                (env w₁.nextId) w₁.clock with
            | .error e => .error e
            | .ok wop =>
              let w₂ := { w₁ with nextId := w₁.nextId + 1,
                                  operations := w₁.operations.save wop }
              match EntityFactory.createOperation OperationType.income
                  c.toAccountId c.amount category.id c.description w₂.clock
                  (env w₂.nextId) w₂.clock with
              | .error e => .error e
              | .ok dop =>
                let c' := { c with withdrawOperation := some wop,
                                   depositOperation := some dop }
                let w₃ := { w₂ with nextId := w₂.nextId + 1,
                                    operations := w₂.operations.save dop }
                .ok (c', w₃)

/-- `TransferCommand::doUndo`: if both accounts are still present, run the
inverse transfer (destination → source) and update both; the operation
records created by `doExecute` are left in place. -/
def TransferCommand.doUndo (c : TransferCommand) (w : World) :
    Except Err (TransferCommand × World) :=
  match w.accounts.findById c.fromAccountId, w.accounts.findById c.toAccountId with
  | some fromAccount, some toAccount =>
    match toAccount.transfer fromAccount c.amount w.clock with
    | .error e => .error e
    | .ok (toAccount', fromAccount') =>
      match Repo.update w.accounts fromAccount' with
      | .error e => .error e
      | .ok accRepo =>
        match Repo.update accRepo toAccount' with
        | .error e => .error e
        | .ok accRepo' => .ok (c, { w with accounts := accRepo' })
  | _, _ => .ok (c, w)

/-- `BaseCommand::execute` for `TransferCommand`. -/
def TransferCommand.execute (c : TransferCommand) (env : Nat → IdSeed)
    (w : World) : Except Err (TransferCommand × World) :=
  if c.executed then .error (.runtimeError "command already executed")
  else
    match c.doExecute env w with
    | .error e => .error e
    | .ok (c', w') => .ok ({ c' with executed := true }, w')

/-- `BaseCommand::undo` for `TransferCommand` (`canUndo` is `true`). -/
def TransferCommand.undo (c : TransferCommand) (w : World) :
    Except Err (TransferCommand × World) :=
  if ¬c.executed then .error (.runtimeError "command not executed")
  else
    match c.doUndo w with
    | .error e => .error e
    | .ok (c', w') => .ok ({ c' with executed := false }, w')

/-- One balance-changing request submitted through the command layer, the
way the application facade builds it: a raw amount and currency code that
are first turned into `Money` by the validated constructor. -/
inductive CoreStep where
  | createAccount (name : String) (initAmount : Decimal) (currency accountNumber : String)
  | addOperation (type : OperationType) (accountId : Id) (amount : Decimal)
      (currency : String) (categoryId : Id) (description : String)
  | transferStep (fromId toId : Id) (amount : Decimal) (currency : String)
deriving DecidableEq, Inhabited

/-- Run one step through the corresponding freshly constructed command. -/
def applyStep (env : Nat → IdSeed) (w : World) (s : CoreStep) : Except Err World :=
  match s with
  | .createAccount name amount currency number =>
    match Money.make amount currency with
    | .error e => .error e
    | .ok m =>
      match (CreateAccountCommand.fresh name m number).execute env w with
      | .error e => .error e
      | .ok (_, w') => .ok w'
  | .addOperation t accId amount currency catId descr =>
    match Money.make amount currency with
    | .error e => .error e
    | .ok m =>
      match (AddOperationCommand.fresh t accId m catId descr).execute env w with
      | .error e => .error e
      | .ok (_, w') => .ok w'
  | .transferStep fromId toId amount currency =>
    match Money.make amount currency with
    | .error e => .error e
    | .ok m =>
      match (TransferCommand.fresh fromId toId m).execute env w with
      | .error e => .error e
      | .ok (_, w') => .ok w'

/-- Run a sequence of steps from a starting state. -/
def applySteps (env : Nat → IdSeed) (w : World) (steps : List CoreStep) :
    Except Err World :=
  match steps with
  | [] => .ok w
  | s :: rest =>
    match applyStep env w s with
    | .error e => .error e
    | .ok w' => applySteps env w' rest

/-- An abstract command as the `CommandHistory` sees it: the `canUndo`
capability flag, the `doExecute`/`doUndo` bodies as state transformers
over an arbitrary state type `σ`, the `BaseCommand` executed flag, and a
label standing for the object's identity. -/
structure Cmd (σ : Type) where
  label : Nat
  canUndo : Bool
  doExec : σ → Except Err σ
  doUndoF : σ → Except Err σ
  executed : Bool

/-- `BaseCommand::execute` over an abstract command. -/
def Cmd.executeB {σ : Type} (c : Cmd σ) (s : σ) : Except Err (Cmd σ × σ) :=
  if c.executed then .error (.runtimeError "command already executed")
  else
    match c.doExec s with
    | .error e => .error e
    | .ok s' => .ok ({ c with executed := true }, s')

/-- `BaseCommand::undo` over an abstract command. -/
def Cmd.undoB {σ : Type} (c : Cmd σ) (s : σ) : Except Err (Cmd σ × σ) :=
  if ¬c.executed then .error (.runtimeError "command not executed")
  else if ¬c.canUndo then .error (.runtimeError "command cannot be undone")
  else
    match c.doUndoF s with
    | .error e => .error e
    | .ok s' => .ok ({ c with executed := false }, s')

/-- `CommandHistory`: the executed-command list and the cursor. -/
structure CommandHistory (σ : Type) where
  hist : List (Cmd σ)
  currentIndex : Nat

/-- A `CommandHistory` as constructed: empty list, cursor at zero. -/
def CommandHistory.empty {σ : Type} : CommandHistory σ := ⟨[], 0⟩

/-- `CommandHistory::canUndo`:
`currentIndex_ > 0 && history_[currentIndex_ - 1]->canUndo()`. -/
def CommandHistory.canUndo {σ : Type} (h : CommandHistory σ) : Bool :=
  decide (0 < h.currentIndex) &&
    (match h.hist.get? (h.currentIndex - 1) with
     | some c => c.canUndo
     | none => false)

/-- `CommandHistory::canRedo`: `currentIndex_ < history_.size()`. -/
def CommandHistory.canRedo {σ : Type} (h : CommandHistory σ) : Bool :=
  decide (h.currentIndex < h.hist.length)

/-- `CommandHistory::execute`: truncate the undone tail beyond the cursor,
run the command's `execute()`, append it and move the cursor to the end.
(When `execute()` throws, the C++ object keeps the truncated list and the
old cursor; the error short-circuit here returns no history, and no claim
is about the post-exception history state.) -/
def CommandHistory.execute {σ : Type} (h : CommandHistory σ) (c : Cmd σ) (s : σ) :
    Except Err (CommandHistory σ × σ) :=
  let hist₀ := if h.currentIndex < h.hist.length then h.hist.take h.currentIndex
               else h.hist
  match c.executeB s with
  | .error e => .error e
  | .ok (c', s') =>
    .ok (⟨hist₀ ++ [c'], (hist₀ ++ [c']).length⟩, s')

/-- `CommandHistory::undo`: a no-op unless `canUndo()`, then a second
per-command `canUndo` check, then the command's `undo()` and a cursor
decrement.  The mutated command object is written back into the list. -/
def CommandHistory.undo {σ : Type} (h : CommandHistory σ) (s : σ) :
    Except Err (CommandHistory σ × σ) :=
  if h.canUndo then
    match h.hist.get? (h.currentIndex - 1) with
    | some c =>
      if c.canUndo then
        match c.undoB s with
        | .error e => .error e
        | .ok (c', s') =>
          .ok (⟨h.hist.set (h.currentIndex - 1) c', h.currentIndex - 1⟩, s')
      else .ok (h, s)
    | none => .ok (h, s)
  else .ok (h, s)

/-- `CommandHistory::redo`: a no-op unless `canRedo()`, then re-execute
the command at the cursor and advance it. -/
def CommandHistory.redo {σ : Type} (h : CommandHistory σ) (s : σ) :
    Except Err (CommandHistory σ × σ) :=
  if h.canRedo then
    match h.hist.get? h.currentIndex with
    | some c =>
      match c.executeB s with
      | .error e => .error e
      | .ok (c', s') =>
        .ok (⟨h.hist.set h.currentIndex c', h.currentIndex + 1⟩, s')
    | none => .ok (h, s)
  else .ok (h, s)

/-! ### Association-list lemmas -/

theorem listFind?_upsert_self {α : Type} (l : List (Id × α)) (k : Id) (v : α) :
    listFind? (listUpsert l k v) k = some v := by
  induction l with
  | nil => simp [listUpsert, listFind?, List.find?]
  | cons p rest ih =>
    by_cases h : p.1 = k
    · simp [listUpsert, h, listFind?, List.find?]
    · simpa [listUpsert, h, listFind?, List.find?] using ih

theorem listFind?_nil {α : Type} (k : Id) : listFind? ([] : List (Id × α)) k = none := by
  simp [listFind?, List.find?]

theorem listFind?_cons {α : Type} (p : Id × α) (l : List (Id × α)) (k : Id) :
    listFind? (p :: l) k = if p.1 = k then some p.2 else listFind? l k := by
  by_cases hp : p.1 = k
  · rw [listFind?, List.find?_cons_of_pos _ (by simpa using hp), if_pos hp]
  · rw [listFind?, List.find?_cons_of_neg _ (by simpa using hp), if_neg hp]
    rfl

theorem listFind?_upsert_ne {α : Type} (l : List (Id × α)) (k k' : Id) (v : α)
    (h : k' ≠ k) : listFind? (listUpsert l k v) k' = listFind? l k' := by
  induction l with
  | nil => simp [listUpsert, listFind?_cons, listFind?_nil, Ne.symm h]
  | cons p rest ih =>
    by_cases hp : p.1 = k
    · subst hp
      simp [listUpsert, listFind?_cons, Ne.symm h]
    · simp [listUpsert, hp, listFind?_cons, ih]

theorem listUpsert_append {α : Type} (l : List (Id × α)) (k : Id) (v : α)
    (h : ∀ p ∈ l, p.1 ≠ k) : listUpsert l k v = l ++ [(k, v)] := by
  induction l with
  | nil => simp [listUpsert]
  | cons p rest ih =>
    have hp := h p (by simp)
    simp only [listUpsert, hp, if_false]
    have : ∀ q ∈ rest, q.1 ≠ k := fun q hq => h q (by simp [hq])
    simp [ih this]

theorem listFind?_mem {α : Type} {l : List (Id × α)} {k : Id} {v : α}
    (h : listFind? l k = some v) : (k, v) ∈ l := by
  unfold listFind? at h
  match hf : l.find? (fun p => p.1 == k) with
  | some p =>
    rw [hf] at h
    have hmem := List.mem_of_find?_eq_some hf
    have hk : p.1 = k := by
      have := List.find?_some hf
      simpa using this
    cases h
    have : p = (k, p.2) := by
      cases p; simp at hk; simp [hk]
    rw [← this]; exact hmem
  | none => rw [hf] at h; cases h

theorem listFind?_eq_none {α : Type} {l : List (Id × α)} {k : Id}
    (h : ∀ p ∈ l, p.1 ≠ k) : listFind? l k = none := by
  induction l with
  | nil => exact listFind?_nil k
  | cons p rest ih =>
    rw [listFind?_cons, if_neg (h p (by simp))]
    exact ih (fun q hq => h q (by simp [hq]))

theorem mem_upsert {α : Type} {l : List (Id × α)} {k : Id} {v : α} {p : Id × α}
    (h : p ∈ listUpsert l k v) : p = (k, v) ∨ p ∈ l := by
  induction l with
  | nil => simpa [listUpsert] using h
  | cons q rest ih =>
    by_cases hq : q.1 = k
    · simp only [listUpsert, hq, if_true] at h
      rcases List.mem_cons.mp h with h1 | h2
      · exact Or.inl h1
      · exact Or.inr (List.mem_cons.mpr (Or.inr h2))
    · simp only [listUpsert, hq, if_false] at h
      rcases List.mem_cons.mp h with h1 | h2
      · exact Or.inr (List.mem_cons.mpr (Or.inl h1))
      · rcases ih h2 with h3 | h4
        · exact Or.inl h3
        · exact Or.inr (List.mem_cons.mpr (Or.inr h4))

theorem mem_upsert_of_ne {α : Type} {l : List (Id × α)} {k : Id} {v : α} {p : Id × α}
    (hp : p ∈ l) (hne : p.1 ≠ k) : p ∈ listUpsert l k v := by
  induction l with
  | nil => cases hp
  | cons q rest ih =>
    rcases List.mem_cons.mp hp with h1 | h2
    · subst h1
      simp only [listUpsert, hne, if_false]
      exact List.mem_cons.mpr (Or.inl rfl)
    · by_cases hq : q.1 = k
      · simp only [listUpsert, hq, if_true]
        exact List.mem_cons.mpr (Or.inr h2)
      · simp only [listUpsert, hq, if_false]
        exact List.mem_cons.mpr (Or.inr (ih h2))

theorem mem_upsert_nodup {α : Type} {l : List (Id × α)} {k : Id} {v : α} {p : Id × α}
    (hnd : (l.map Prod.fst).Nodup) (h : p ∈ listUpsert l k v) :
    p = (k, v) ∨ (p ∈ l ∧ p.1 ≠ k) := by
  induction l with
  | nil => simpa [listUpsert] using h
  | cons q rest ih =>
    have hnd' : (rest.map Prod.fst).Nodup := (List.nodup_cons.mp hnd).2
    have hqrest : q.1 ∉ rest.map Prod.fst := (List.nodup_cons.mp hnd).1
    by_cases hq : q.1 = k
    · simp only [listUpsert, hq, if_true] at h
      rcases List.mem_cons.mp h with h1 | h2
      · exact Or.inl h1
      · right
        refine ⟨List.mem_cons.mpr (Or.inr h2), ?_⟩
        intro hpk
        exact hqrest (by
          rw [hq, ← hpk]
          exact List.mem_map.mpr ⟨p, h2, rfl⟩)
    · simp only [listUpsert, hq, if_false] at h
      rcases List.mem_cons.mp h with h1 | h2
      · subst h1; exact Or.inr ⟨List.mem_cons.mpr (Or.inl rfl), hq⟩
      · rcases ih hnd' h2 with h3 | ⟨h4, h5⟩
        · exact Or.inl h3
        · exact Or.inr ⟨List.mem_cons.mpr (Or.inr h4), h5⟩

theorem keys_upsert_of_found {α : Type} (l : List (Id × α)) (k : Id) (v : α)
    (h : listFind? l k ≠ none) :
    (listUpsert l k v).map Prod.fst = l.map Prod.fst := by
  induction l with
  | nil => simp [listFind?, List.find?] at h
  | cons p rest ih =>
    by_cases hp : p.1 = k
    · simp [listUpsert, hp]
    · have h' : listFind? rest k ≠ none := by
        rw [listFind?_cons, if_neg hp] at h
        exact h
      simp [listUpsert, hp, ih h']

theorem listFind?_erase_self {α : Type} (l : List (Id × α)) (k : Id) :
    listFind? (listErase l k) k = none := by
  apply listFind?_eq_none
  intro p hp
  unfold listErase at hp
  have := List.of_mem_filter hp
  simpa using this

theorem mem_erase_sub {α : Type} {l : List (Id × α)} {k : Id} {p : Id × α}
    (h : p ∈ listErase l k) : p ∈ l ∧ p.1 ≠ k := by
  unfold listErase at h
  refine ⟨List.mem_of_mem_filter h, ?_⟩
  have := List.of_mem_filter h
  simpa using this

/-! ### Success-destructuring lemmas for the entity operations -/

theorem Money.make_ok {a : Decimal} {c : String} {m : Money}
    (h : Money.make a c = .ok m) :
    m = Money.mk a c ∧ ¬c = "" ∧ c.length ≤ 3 := by
  unfold Money.make Validator.validateNotEmpty Validator.validateMaxLength at h
  by_cases h1 : c = "" <;> simp [h1] at h
  by_cases h2 : 3 < c.length <;> simp [h2] at h
  exact ⟨h.symm, h1, by omega⟩

theorem Money.make_ok_of (a : Decimal) (c : String) (h1 : ¬c = "")
    (h2 : c.length ≤ 3) : Money.make a c = .ok (Money.mk a c) := by
  unfold Money.make Validator.validateNotEmpty Validator.validateMaxLength
  have h3 : ¬3 < c.length := by omega
  simp [h1, h3]

theorem Money.add_ok {a b m : Money} (h : Money.add a b = .ok m) :
    m = Money.mk (a.amount + b.amount) a.currency ∧ b.currency = a.currency := by
  unfold Money.add at h
  by_cases hc : a.currency = b.currency
  · simp [hc] at h
    rcases Money.make_ok h with ⟨h1, _, _⟩
    rw [← hc] at h1
    exact ⟨h1, hc.symm⟩
  · simp [hc] at h

theorem Money.subtract_ok {a b m : Money} (h : Money.subtract a b = .ok m) :
    m = Money.mk (a.amount - b.amount) a.currency ∧ b.currency = a.currency := by
  unfold Money.subtract at h
  by_cases hc : a.currency = b.currency
  · simp [hc] at h
    rcases Money.make_ok h with ⟨h1, _, _⟩
    rw [← hc] at h1
    exact ⟨h1, hc.symm⟩
  · simp [hc] at h

theorem BankAccount.deposit_ok {acc acc' : BankAccount} {m : Money} {now : DateTime}
    (h : acc.deposit m now = .ok acc') :
    acc' = { acc with balance := Money.mk (acc.balance.amount + m.amount) acc.balance.currency,
                      updatedAt := now } ∧
      m.currency = acc.currency ∧ acc.balance.currency = m.currency ∧
      0 < m.amount ∧ acc.isActive = true := by
  unfold BankAccount.deposit at h
  by_cases h1 : acc.isActive <;> simp [h1] at h
  by_cases h2 : m.currency = acc.currency <;> simp [h2] at h
  by_cases h3 : m.isPositive <;> simp [h3] at h
  · match hadd : acc.balance.add m with
    | .error e => rw [hadd] at h; cases h
    | .ok b =>
      rw [hadd] at h
      rcases Money.add_ok hadd with ⟨hb, hc⟩
      simp at h
      refine ⟨?_, h2, hc.symm, ?_, h1⟩
      · rw [← h, hb]
        simp [h1]
      · have := h3
        unfold Money.isPositive at this
        simpa using this

theorem BankAccount.withdraw_ok {acc acc' : BankAccount} {m : Money} {now : DateTime}
    (h : acc.withdraw m now = .ok acc') :
    acc' = { acc with balance := Money.mk (acc.balance.amount - m.amount) acc.balance.currency,
                      updatedAt := now } ∧
      m.currency = acc.currency ∧ acc.balance.currency = m.currency ∧
      0 < m.amount ∧ acc.isActive = true ∧ m.amount ≤ acc.balance.amount ∧
      ¬acc.balance.currency = "" ∧ acc.balance.currency.length ≤ 3 := by
  unfold BankAccount.withdraw at h
  by_cases h1 : acc.isActive <;> simp [h1] at h
  by_cases h2 : m.currency = acc.currency <;> simp [h2] at h
  by_cases h3 : m.isPositive <;> simp [h3] at h
  · unfold Money.ltM at h
    by_cases h4 : acc.balance.currency = m.currency
    · simp [h4] at h
      by_cases h5 : acc.balance.amount < m.amount
      · simp [h5] at h
      · simp [h5] at h
        match hsub : acc.balance.subtract m with
        | .error e => rw [hsub] at h; cases h
        | .ok b =>
          rw [hsub] at h
          rcases Money.subtract_ok hsub with ⟨hb, _⟩
          have hval : ¬acc.balance.currency = "" ∧ acc.balance.currency.length ≤ 3 := by
            unfold Money.subtract at hsub
            rw [if_neg (by simp [h4])] at hsub
            exact (Money.make_ok hsub).2
          simp at h
          refine ⟨?_, h2, h4, ?_, h1, not_lt.mp h5, hval.1, hval.2⟩
          · rw [← h, hb]
            simp [h1]
          · have := h3
            unfold Money.isPositive at this
            simpa using this
    · simp [h4] at h

theorem BankAccount.withdraw_ok_of (acc : BankAccount) (m : Money) (now : DateTime)
    (h1 : acc.isActive = true) (h2 : m.currency = acc.currency)
    (hbc : acc.balance.currency = m.currency) (h3 : 0 < m.amount)
    (h4 : m.amount ≤ acc.balance.amount) (h5 : ¬acc.balance.currency = "")
    (h6 : acc.balance.currency.length ≤ 3) :
    acc.withdraw m now =
      .ok { acc with balance := Money.mk (acc.balance.amount - m.amount) acc.balance.currency,
                     updatedAt := now } := by
  unfold BankAccount.withdraw
  rw [if_neg (by simp [h1])]
  rw [if_neg (by simp [h2])]
  have hip : m.isPositive = true := by
    unfold Money.isPositive
    simpa using h3
  rw [if_neg (by simp [hip])]
  unfold Money.ltM
  rw [if_neg (by simp [hbc])]
  rw [decide_eq_false (not_lt.mpr h4)]
  unfold Money.subtract
  dsimp only
  rw [if_neg (by simp [hbc])]
  rw [Money.make_ok_of _ _ h5 h6]

theorem BankAccount.withdraw_insufficient {acc : BankAccount} {m : Money}
    (now : DateTime) (h1 : acc.isActive = true) (h2 : m.currency = acc.currency)
    (hbc : acc.balance.currency = m.currency) (h3 : 0 < m.amount)
    (h4 : acc.balance.amount < m.amount) :
    acc.withdraw m now = .error (.insufficientFunds m.amount acc.balance.amount) := by
  unfold BankAccount.withdraw
  rw [if_neg (by simp [h1])]
  rw [if_neg (by simp [h2])]
  have hpos : m.isPositive = true := by
    unfold Money.isPositive
    simpa using h3
  rw [if_neg (by simp [hpos])]
  unfold Money.ltM
  rw [if_neg (by simp [hbc])]
  simp [h4]

theorem BankAccount.transfer_ok {src tgt src' tgt' : BankAccount} {m : Money}
    {now : DateTime} (h : src.transfer tgt m now = .ok (src', tgt')) :
    src.withdraw m now = .ok src' ∧ tgt.deposit m now = .ok tgt' ∧
      src.isActive = true ∧ tgt.isActive = true ∧ ¬src.id = tgt.id := by
  unfold BankAccount.transfer at h
  by_cases h1 : (src.isActive && tgt.isActive) = true
  · rw [if_neg (by simp [h1])] at h
    by_cases h2 : src.id = tgt.id
    · rw [if_pos h2] at h; cases h
    · rw [if_neg h2] at h
      match hw : src.withdraw m now with
      | .error e => rw [hw] at h; cases h
      | .ok s' =>
        rw [hw] at h
        match hd : tgt.deposit m now with
        | .ok t' =>
          rw [hd] at h
          simp at h
          obtain ⟨hs, ht⟩ := h
          subst hs; subst ht
          simp at h1
          exact ⟨rfl, rfl, h1.1, h1.2, h2⟩
        | .error e =>
          rw [hd] at h
          dsimp only at h
          match hcomp : s'.deposit m now with
          | .ok s'' =>
            rw [hcomp] at h
            simp at h
          | .error e2 =>
            rw [hcomp] at h
            simp at h
  · rw [if_pos (by simpa using h1)] at h; cases h

theorem BankAccount.recalculateBalance_ok {acc acc' : BankAccount} {nb : Money}
    {now : DateTime} (h : acc.recalculateBalance nb now = .ok acc') :
    acc' = { acc with balance := nb, updatedAt := now } ∧ nb.currency = acc.currency := by
  unfold BankAccount.recalculateBalance at h
  by_cases hc : nb.currency = acc.currency <;> simp [hc] at h
  exact ⟨h.symm, hc⟩

theorem Repo.update_ok {T : Type} [HasId T] {r r' : Repo T} {e : T}
    (h : Repo.update r e = .ok r') :
    r' = r.save e ∧ r.findById (HasId.getId e) ≠ none := by
  unfold Repo.update at h
  match hf : r.findById (HasId.getId e) with
  | none => rw [hf] at h; cases h
  | some x => rw [hf] at h; simp at h; exact ⟨h.symm, by simp [hf]⟩

theorem Repo.update_of_found {T : Type} [HasId T] {r : Repo T} {e : T} {x : T}
    (h : r.findById (HasId.getId e) = some x) :
    Repo.update r e = .ok (r.save e) := by
  unfold Repo.update
  rw [h]

/-! ### Id-generator lemmas -/

theorem IdGenerator.toDigitsCore_eq (fuel : Nat) : ∀ (n : Nat) (acc : List Char),
    n < fuel →
    Nat.toDigitsCore 16 fuel n acc =
      (if n = 0 then ['0'] else ((Nat.digits 16 n).map Nat.digitChar).reverse) ++ acc := by
  induction fuel with
  | zero => intro n acc h; omega
  | succ fuel ih =>
    intro n acc h
    simp only [Nat.toDigitsCore]
    by_cases h0 : n / 16 = 0
    · rw [if_pos h0]
      by_cases hn : n = 0
      · rw [if_pos hn, hn]
        rfl
      · rw [if_neg hn,
          Nat.digits_def' (by norm_num : (1 : ℕ) < 16) (Nat.pos_of_ne_zero hn),
          h0, Nat.digits_zero]
        rfl
    · rw [if_neg h0]
      have hnpos : ¬n = 0 := by omega
      have hlt : n / 16 < fuel := by omega
      rw [ih (n / 16) (Nat.digitChar (n % 16) :: acc) hlt, if_neg h0,
        if_neg hnpos,
        Nat.digits_def' (by norm_num : (1 : ℕ) < 16) (Nat.pos_of_ne_zero hnpos)]
      simp [List.reverse_cons, List.append_assoc]

theorem IdGenerator.toDigits_eq (n : Nat) :
    Nat.toDigits 16 n =
      if n = 0 then ['0'] else ((Nat.digits 16 n).map Nat.digitChar).reverse := by
  unfold Nat.toDigits
  rw [IdGenerator.toDigitsCore_eq (n + 1) n [] (Nat.lt_succ_self n), List.append_nil]

theorem IdGenerator.digitChar_inj :
    ∀ a < 16, ∀ b < 16, Nat.digitChar a = Nat.digitChar b → a = b := by decide

theorem IdGenerator.map_digitChar_inj (l₁ : List Nat) :
    ∀ (l₂ : List Nat), (∀ d ∈ l₁, d < 16) → (∀ d ∈ l₂, d < 16) →
    l₁.map Nat.digitChar = l₂.map Nat.digitChar → l₁ = l₂ := by
  induction l₁ with
  | nil =>
    intro l₂ _ _ h
    cases l₂ with
    | nil => rfl
    | cons b bs => simp at h
  | cons a as ih =>
    intro l₂ h₁ h₂ h
    cases l₂ with
    | nil => simp at h
    | cons b bs =>
      simp only [List.map_cons, List.cons.injEq] at h
      have hab := IdGenerator.digitChar_inj a (h₁ a (List.mem_cons_self a as))
        b (h₂ b (List.mem_cons_self b bs)) h.1
      rw [hab, ih bs (fun d hd => h₁ d (List.mem_cons_of_mem a hd))
        (fun d hd => h₂ d (List.mem_cons_of_mem b hd)) h.2]

theorem IdGenerator.hex_inj {m n : Nat}
    (h : Nat.toDigits 16 m = Nat.toDigits 16 n) : m = n := by
  rw [IdGenerator.toDigits_eq, IdGenerator.toDigits_eq] at h
  by_cases hm : m = 0 <;> by_cases hn : n = 0
  · rw [hm, hn]
  · rw [if_pos hm, if_neg hn] at h
    have h' : (Nat.digits 16 n).map Nat.digitChar = ['0'] := by
      have h2 := congrArg List.reverse h
      simpa using h2.symm
    have hd : Nat.digits 16 n = [0] :=
      IdGenerator.map_digitChar_inj (Nat.digits 16 n) [0]
        (fun d hd => Nat.digits_lt_base (by norm_num) hd)
        (by intro d hd; simp at hd; omega)
        (by rw [h']; rfl)
    have hofd := Nat.ofDigits_digits 16 n
    rw [hd] at hofd
    simp only [Nat.ofDigits_cons, Nat.ofDigits_nil] at hofd
    omega
  · rw [if_neg hm, if_pos hn] at h
    have h' : (Nat.digits 16 m).map Nat.digitChar = ['0'] := by
      have h2 := congrArg List.reverse h
      simpa using h2
    have hd : Nat.digits 16 m = [0] :=
      IdGenerator.map_digitChar_inj (Nat.digits 16 m) [0]
        (fun d hd => Nat.digits_lt_base (by norm_num) hd)
        (by intro d hd; simp at hd; omega)
        (by rw [h']; rfl)
    have hofd := Nat.ofDigits_digits 16 m
    rw [hd] at hofd
    simp only [Nat.ofDigits_cons, Nat.ofDigits_nil] at hofd
    omega
  · rw [if_neg hm, if_neg hn] at h
    have h' := congrArg List.reverse h
    simp only [List.reverse_reverse] at h'
    have hd := IdGenerator.map_digitChar_inj (Nat.digits 16 m) (Nat.digits 16 n)
      (fun d hd => Nat.digits_lt_base (by norm_num) hd)
      (fun d hd => Nat.digits_lt_base (by norm_num) hd) h'
    rw [← Nat.ofDigits_digits 16 m, ← Nat.ofDigits_digits 16 n, hd]

theorem IdGenerator.append_sep_inj (a₁ : List Char) :
    ∀ (a₂ b₁ b₂ : List Char), '-' ∉ a₁ → '-' ∉ a₂ →
    a₁ ++ '-' :: b₁ = a₂ ++ '-' :: b₂ → a₁ = a₂ ∧ b₁ = b₂ := by
  induction a₁ with
  | nil =>
    intro a₂ b₁ b₂ _ h₂ h
    cases a₂ with
    | nil =>
      simp only [List.nil_append, List.cons.injEq] at h
      exact ⟨rfl, h.2⟩
    | cons y ys =>
      simp only [List.nil_append, List.cons_append, List.cons.injEq] at h
      have hmem : ('-' : Char) ∈ y :: ys := by
        rw [h.1]
        exact List.mem_cons_self y ys
      exact absurd hmem h₂
  | cons x xs ih =>
    intro a₂ b₁ b₂ h₁ h₂ h
    cases a₂ with
    | nil =>
      simp only [List.cons_append, List.nil_append, List.cons.injEq] at h
      have hmem : ('-' : Char) ∈ x :: xs := by
        rw [← h.1]
        exact List.mem_cons_self x xs
      exact absurd hmem h₁
    | cons y ys =>
      simp only [List.cons_append, List.cons.injEq] at h
      obtain ⟨ha, hb⟩ := ih ys b₁ b₂ (fun hm => h₁ (List.mem_cons_of_mem x hm))
        (fun hm => h₂ (List.mem_cons_of_mem y hm)) h.2
      exact ⟨by rw [h.1, ha], hb⟩

theorem IdGenerator.sep_not_mem_toDigits (n : Nat) :
    ('-' : Char) ∉ Nat.toDigits 16 n := by
  rw [IdGenerator.toDigits_eq]
  by_cases hn : n = 0
  · rw [if_pos hn]
    decide
  · rw [if_neg hn]
    intro hmem
    rw [List.mem_reverse] at hmem
    obtain ⟨d, hd, hdc⟩ := List.mem_map.mp hmem
    have hlt : d < 16 := Nat.digits_lt_base (by norm_num) hd
    exact (by decide : ∀ a < 16, ¬Nat.digitChar a = '-') d hlt hdc

theorem IdGenerator.toDigits_chars (n : Nat) :
    ∀ c ∈ Nat.toDigits 16 n, Validator.isIdChar c = true := by
  rw [IdGenerator.toDigits_eq]
  by_cases hn : n = 0
  · rw [if_pos hn]
    intro c hc
    simp at hc
    rw [hc]
    decide
  · rw [if_neg hn]
    intro c hc
    rw [List.mem_reverse] at hc
    obtain ⟨d, hd, hdc⟩ := List.mem_map.mp hc
    have hlt : d < 16 := Nat.digits_lt_base (by norm_num) hd
    rw [← hdc]
    exact (by decide : ∀ a < 16, Validator.isIdChar (Nat.digitChar a) = true) d hlt

theorem IdGenerator.generate_ne_empty (pfx : String) (s : IdSeed) :
    ¬IdGenerator.generate pfx s = "" := by
  unfold IdGenerator.generate
  intro h
  have hd : ((if pfx = "" then [] else pfx.data ++ ['-']) ++
      (Nat.toDigits 16 s.time ++ '-' :: IdGenerator.randPart s)) = ([] : List Char) :=
    congrArg String.data h
  simp at hd

theorem IdGenerator.generate_valid (pfx : String) (s : IdSeed)
    (hp : pfx.data.all Validator.isIdChar = true) :
    Validator.validateId (IdGenerator.generate pfx s) = .ok () := by
  unfold Validator.validateId Validator.validateNotEmpty
  rw [if_neg (IdGenerator.generate_ne_empty pfx s)]
  have hall : (IdGenerator.generate pfx s).data.all Validator.isIdChar = true := by
    show ((if pfx = "" then [] else pfx.data ++ ['-']) ++
      (Nat.toDigits 16 s.time ++ '-' :: IdGenerator.randPart s)).all
        Validator.isIdChar = true
    rw [List.all_eq_true]
    intro c hc
    rcases List.mem_append.mp hc with hA | hrest
    · by_cases hpfx : pfx = ""
      · rw [if_pos hpfx] at hA
        simp at hA
      · rw [if_neg hpfx] at hA
        rcases List.mem_append.mp hA with hc1 | hc1
        · exact List.all_eq_true.mp hp c hc1
        · simp at hc1
          rw [hc1]
          decide
    · rcases List.mem_append.mp hrest with hB | hC
      · exact IdGenerator.toDigits_chars s.time c hB
      · rcases List.mem_cons.mp hC with hdash | hC'
        · rw [hdash]
          decide
        · obtain ⟨i, hi⟩ := Set.mem_range.mp ((List.mem_ofFn _ _).mp hC')
          rw [← hi]
          exact (by decide : ∀ a < 16, Validator.isIdChar (Nat.digitChar a) = true)
            (s.digits i).val (s.digits i).isLt
  simp [hall]

theorem IdGenerator.acc_ne_op (s t : IdSeed) :
    ¬IdGenerator.generate "ACC" s = IdGenerator.generate "OP" t := by
  intro h
  have hd : 'A' :: 'C' :: 'C' :: '-' ::
        (Nat.toDigits 16 s.time ++ '-' :: IdGenerator.randPart s) =
      'O' :: 'P' :: '-' ::
        (Nat.toDigits 16 t.time ++ '-' :: IdGenerator.randPart t) :=
    congrArg String.data h
  simp at hd

theorem IdGenerator.acc_ne_cat (s t : IdSeed) :
    ¬IdGenerator.generate "ACC" s = IdGenerator.generate "CAT" t := by
  intro h
  have hd : 'A' :: 'C' :: 'C' :: '-' ::
        (Nat.toDigits 16 s.time ++ '-' :: IdGenerator.randPart s) =
      'C' :: 'A' :: 'T' :: '-' ::
        (Nat.toDigits 16 t.time ++ '-' :: IdGenerator.randPart t) :=
    congrArg String.data h
  simp at hd

theorem IdGenerator.op_ne_cat (s t : IdSeed) :
    ¬IdGenerator.generate "OP" s = IdGenerator.generate "CAT" t := by
  intro h
  have hd : 'O' :: 'P' :: '-' ::
        (Nat.toDigits 16 s.time ++ '-' :: IdGenerator.randPart s) =
      'C' :: 'A' :: 'T' :: '-' ::
        (Nat.toDigits 16 t.time ++ '-' :: IdGenerator.randPart t) :=
    congrArg String.data h
  simp at hd

/-- A concrete collision-free oracle used by the witnesses: the `n`-th
generator call reads clock `n` and draws eight zero digits. -/
def idTestEnv : Nat → IdSeed := fun n => ⟨n, fun _ => 0⟩

theorem idTestEnv_inj : IdGenerator.EnvInj idTestEnv := by
  intro pfx i j h
  have hd : ((if pfx = "" then [] else pfx.data ++ ['-']) ++
      (Nat.toDigits 16 i ++ '-' :: IdGenerator.randPart (idTestEnv i))) =
      ((if pfx = "" then [] else pfx.data ++ ['-']) ++
      (Nat.toDigits 16 j ++ '-' :: IdGenerator.randPart (idTestEnv j))) :=
    congrArg String.data h
  have hrand : IdGenerator.randPart (idTestEnv i) = IdGenerator.randPart (idTestEnv j) := rfl
  rw [hrand] at hd
  have hcancel := List.append_cancel_left hd
  exact IdGenerator.hex_inj (IdGenerator.append_sep_inj (Nat.toDigits 16 i)
    (Nat.toDigits 16 j) _ _
    (IdGenerator.sep_not_mem_toDigits i) (IdGenerator.sep_not_mem_toDigits j) hcancel).1

/-! ### The reconciliation fold -/

/-- The signed contribution of one operation to a balance: incomes add,
expenses subtract. -/
def signedAmount (op : Operation) : Decimal :=
  if op.isIncome then op.amount.amount else -op.amount.amount

/-- Sum of signed contributions over an operation list. -/
def sumSigned (l : List Operation) : Decimal := (l.map signedAmount).sum

/-- The signed operation total for one account over raw repository
entries, before sorting. -/
def opSum (entries : List (Id × Operation)) (aid : Id) : Decimal :=
  sumSigned ((entries.filter (fun p => p.2.bankAccountId == aid)).map Prod.snd)

theorem sumSigned_findByAccount (r : Repo Operation) (aid : Id) :
    sumSigned (r.findByAccount aid) = opSum r.storage aid := by
  unfold Repo.findByAccount opSum sumSigned
  exact ((List.perm_insertionSort _ _).map signedAmount).sum_eq

theorem mem_findByAccount {r : Repo Operation} {aid : Id} {op : Operation}
    (h : op ∈ r.findByAccount aid) :
    ∃ p ∈ r.storage, p.2 = op ∧ op.bankAccountId = aid := by
  unfold Repo.findByAccount at h
  rw [(List.perm_insertionSort _ _).mem_iff] at h
  rcases List.mem_map.mp h with ⟨p, hp, hpe⟩
  have hfilter := List.of_mem_filter hp
  simp at hfilter
  exact ⟨p, List.mem_of_mem_filter hp, hpe, by rw [← hpe]; exact hfilter⟩

theorem foldlM_reconcile_ok (ops : List Operation) (c : String) (z : Decimal)
    (hc1 : ¬c = "") (hc2 : c.length ≤ 3)
    (hops : ∀ op ∈ ops, op.amount.currency = c) :
    ops.foldlM reconcileStep (Money.mk z c) = .ok (Money.mk (z + sumSigned ops) c) := by
  induction ops generalizing z with
  | nil =>
    show Except.ok (Money.mk z c) = _
    simp [sumSigned]
  | cons op rest ih =>
    have hop := hops op (by simp)
    have hrest : ∀ q ∈ rest, q.amount.currency = c := fun q hq => hops q (by simp [hq])
    have hstep : reconcileStep (Money.mk z c) op =
        .ok (Money.mk (z + signedAmount op) c) := by
      unfold reconcileStep signedAmount
      by_cases hi : op.isIncome
      · simp only [hi, if_true]
        unfold Money.add
        rw [if_neg (by simp [hop])]
        simpa using Money.make_ok_of (z + op.amount.amount) c hc1 hc2
      · simp only [hi, if_false, Bool.false_eq_true, if_neg]
        unfold Money.subtract
        rw [if_neg (by simp [hop])]
        have := Money.make_ok_of (z - op.amount.amount) c hc1 hc2
        simpa [sub_eq_add_neg] using this
    rw [List.foldlM_cons, hstep]
    show List.foldlM reconcileStep (Money.mk (z + signedAmount op) c) rest = _
    rw [ih (z + signedAmount op) hrest]
    have hsum : z + signedAmount op + sumSigned rest = z + sumSigned (op :: rest) := by
      simp only [sumSigned, List.map_cons, List.sum_cons]
      ring
    rw [hsum]

/-! ### Claim C8 -/

/-- Claim C8: for all Money values `a` and `b` with equal currency codes
(and, per the data-model invariant, a valid currency: non-empty and at
most 3 characters, which every validly constructed `Money` satisfies),
`a.add(b).subtract(b)` succeeds and equals `a` under `Money` equality
(same currency and absolute amount difference below the fixed epsilon). -/
theorem c8_money_add_subtract_roundtrip (a b : Money)
    (hcur : a.currency = b.currency) (hne : ¬a.currency = "")
    (hlen : a.currency.length ≤ 3) :
    ∃ s d, a.add b = .ok s ∧ s.subtract b = .ok d ∧ d.equals a = true := by
  refine ⟨Money.mk (a.amount + b.amount) a.currency,
          Money.mk (a.amount + b.amount - b.amount) a.currency, ?_, ?_, ?_⟩
  · unfold Money.add
    rw [if_neg (by simp [hcur])]
    exact Money.make_ok_of _ _ hne hlen
  · unfold Money.subtract
    rw [if_neg (by simp [hcur])]
    exact Money.make_ok_of _ _ hne hlen
  · unfold Money.equals
    have h1 : a.amount + b.amount - b.amount - a.amount = 0 := by ring
    simp only [h1]
    rw [Bool.and_eq_true]
    constructor
    · rw [decide_eq_true_iff]
      rw [abs_zero]
      unfold moneyEps
      norm_num
    · simp

/-- Witness for C8 at a concrete input: 100.5 RUB plus and minus 20 RUB. -/
theorem c8_money_add_subtract_roundtrip_witness :
    ∃ s d, (Money.mk (201/2) "RUB").add (Money.mk 20 "RUB") = .ok s ∧
      s.subtract (Money.mk 20 "RUB") = .ok d ∧
      d.equals (Money.mk (201/2) "RUB") = true :=
  c8_money_add_subtract_roundtrip (Money.mk (201/2) "RUB") (Money.mk 20 "RUB")
    rfl (by decide) (by decide)

/-! ### Claim C2 -/

/-- Claim C2: a successful `withdraw` subtracts the amount and never
leaves the balance negative, changing no account field other than the
balance and the `updatedAt` timestamp; a withdrawal of more than the
balance (on an active account, matching currency, positive amount —
everything the earlier guards check) fails with the insufficient-funds
error, and as an error return it leaves the account value untouched.
The hypothesis is the data-model invariant `balance.currency == currency`. -/
theorem c2_withdraw_never_negative (acc : BankAccount) (m : Money) (now : DateTime)
    (hbc : acc.balance.currency = acc.currency) :
    (∀ acc', acc.withdraw m now = .ok acc' →
      acc'.balance.amount = acc.balance.amount - m.amount ∧
      0 ≤ acc'.balance.amount ∧
      acc'.id = acc.id ∧ acc'.name = acc.name ∧
      acc'.accountNumber = acc.accountNumber ∧ acc'.isActive = acc.isActive ∧
      acc'.currency = acc.currency ∧ acc'.createdAt = acc.createdAt ∧
      acc'.balance.currency = acc.balance.currency) ∧
    (acc.isActive = true → m.currency = acc.currency → 0 < m.amount →
      acc.balance.amount < m.amount →
      acc.withdraw m now = .error (.insufficientFunds m.amount acc.balance.amount)) := by
  constructor
  · intro acc' h
    rcases BankAccount.withdraw_ok h with ⟨hrec, _, _, _, _, hle, _, _⟩
    subst hrec
    refine ⟨rfl, ?_, rfl, rfl, rfl, rfl, rfl, rfl, rfl⟩
    simpa using hle
  · intro h1 h2 h3 h4
    unfold BankAccount.withdraw
    rw [if_neg (by simp [h1])]
    rw [if_neg (by simp [h2])]
    have hpos : m.isPositive = true := by
      unfold Money.isPositive
      simpa using h3
    rw [if_neg (by simp [hpos])]
    unfold Money.ltM
    rw [if_neg (by simp [hbc, h2])]
    simp [h4]

/-- Witness for C2: an account with balance 50 RUB and a withdrawal of
80 RUB; both conjuncts applied at this input. -/
theorem c2_withdraw_never_negative_witness :
    (BankAccount.mk "ACC-1" "Main" (Money.mk 50 "RUB") "" true 0 0 "RUB").withdraw
        (Money.mk 80 "RUB") 1 =
      .error (.insufficientFunds 80 50) :=
  (c2_withdraw_never_negative
      (BankAccount.mk "ACC-1" "Main" (Money.mk 50 "RUB") "" true 0 0 "RUB")
      (Money.mk 80 "RUB") 1 rfl).2 rfl rfl (by norm_num) (by norm_num)

/-! ### Claim C9 -/

/-- Claim C9: repository `update` raises `NotFound` exactly when no
entity with that id is stored (an error return leaves the repository
value untouched), and when one is stored it replaces it with the new
entity, leaving every other id's binding unchanged. -/
theorem c9_repo_update_notfound (T : Type) [HasId T] (r : Repo T) (e : T) :
    (r.findById (HasId.getId e) = none →
      Repo.update r e = .error (.notFound "Entity" (HasId.getId e))) ∧
    (∀ err, Repo.update r e = .error err →
      err = .notFound "Entity" (HasId.getId e) ∧ r.findById (HasId.getId e) = none) ∧
    (∀ x, r.findById (HasId.getId e) = some x →
      ∃ r', Repo.update r e = .ok r' ∧ r'.findById (HasId.getId e) = some e ∧
        ∀ k, ¬k = HasId.getId e → r'.findById k = r.findById k) := by
  refine ⟨?_, ?_, ?_⟩
  · intro h
    unfold Repo.update
    rw [h]
  · intro err h
    unfold Repo.update at h
    match hf : r.findById (HasId.getId e) with
    | none =>
      rw [hf] at h
      simp at h
      exact ⟨h.symm, rfl⟩
    | some x => rw [hf] at h; simp at h
  · intro x hx
    refine ⟨r.save e, Repo.update_of_found hx, ?_, ?_⟩
    · unfold Repo.save Repo.findById
      exact listFind?_upsert_self _ _ _
    · intro k hk
      unfold Repo.save Repo.findById
      exact listFind?_upsert_ne _ _ _ _ hk

/-- Witness for C9: a one-account repository, updating the stored account
and checking both the replacement and the not-found branch through the
theorem's conjuncts. -/
theorem c9_repo_update_notfound_witness :
    ∃ r', Repo.update (Repo.mk [("ACC-1",
        BankAccount.mk "ACC-1" "Old" (Money.mk 5 "RUB") "" true 0 0 "RUB")])
        (BankAccount.mk "ACC-1" "New" (Money.mk 9 "RUB") "" true 0 0 "RUB") = .ok r' ∧
      r'.findById "ACC-1" =
        some (BankAccount.mk "ACC-1" "New" (Money.mk 9 "RUB") "" true 0 0 "RUB") ∧
      ∀ k, ¬k = "ACC-1" →
        r'.findById k = (Repo.mk [("ACC-1",
          BankAccount.mk "ACC-1" "Old" (Money.mk 5 "RUB") "" true 0 0 "RUB")]).findById k :=
  (c9_repo_update_notfound BankAccount
      (Repo.mk [("ACC-1", BankAccount.mk "ACC-1" "Old" (Money.mk 5 "RUB") "" true 0 0 "RUB")])
      (BankAccount.mk "ACC-1" "New" (Money.mk 9 "RUB") "" true 0 0 "RUB")).2.2
    (BankAccount.mk "ACC-1" "Old" (Money.mk 5 "RUB") "" true 0 0 "RUB") rfl

/-! ### Claim C6 -/

/-- Claim C6: for a caching proxy and an entity whose id is present in the
underlying repository, `update(e)` writes through to the repository and
refreshes the cache entry, so an immediately following `findById(e.id)`
returns the updated value `e` — regardless of what (possibly different
and unexpired) entry the cache held for that id before — and it does so
as a pure cache hit that leaves the proxy state unchanged. -/
theorem c6_cache_update_refresh (T : Type) [HasId T] (p : CachingProxy T)
    (e x : T) (now : DateTime)
    (h : p.repo.findById (HasId.getId e) = some x) :
    ∃ p', p.update e now = .ok p' ∧
      p'.repo.findById (HasId.getId e) = some e ∧
      (p'.findById (HasId.getId e) now).1 = some e ∧
      (p'.findById (HasId.getId e) now).2 = p' := by
  have hupd : p.repo.update e = .ok (p.repo.save e) := Repo.update_of_found h
  refine ⟨CachingProxy.cacheEntity { p with repo := p.repo.save e } e now, ?_, ?_, ?_, ?_⟩
  · unfold CachingProxy.update
    rw [hupd]
  · unfold CachingProxy.cacheEntity Repo.save Repo.findById
    exact listFind?_upsert_self _ _ _
  · unfold CachingProxy.findById CachingProxy.cacheEntity
    simp only []
    rw [listFind?_upsert_self]
    have hexp : CacheEntry.isExpired
        (CacheEntry.mk e (now + p.cacheDuration)) now = false := by
      unfold CacheEntry.isExpired
      simp
    simp [hexp]
  · unfold CachingProxy.findById CachingProxy.cacheEntity
    simp only []
    rw [listFind?_upsert_self]
    have hexp : CacheEntry.isExpired
        (CacheEntry.mk e (now + p.cacheDuration)) now = false := by
      unfold CacheEntry.isExpired
      simp
    simp [hexp]

/-- Witness for C6: the cache holds an unexpired stale value for the id,
the repository holds another; after `update` the proxy serves the new
value from the refreshed cache. -/
theorem c6_cache_update_refresh_witness :
    ∃ p', CachingProxy.update (CachingProxy.mk
        (Repo.mk [("ACC-1", BankAccount.mk "ACC-1" "Old" (Money.mk 5 "RUB") "" true 0 0 "RUB")])
        [("ACC-1", CacheEntry.mk
            (BankAccount.mk "ACC-1" "Stale" (Money.mk 1 "RUB") "" true 0 0 "RUB") 1000)]
        60)
        (BankAccount.mk "ACC-1" "New" (Money.mk 9 "RUB") "" true 0 0 "RUB") 5 = .ok p' ∧
      p'.repo.findById "ACC-1" =
        some (BankAccount.mk "ACC-1" "New" (Money.mk 9 "RUB") "" true 0 0 "RUB") ∧
      (p'.findById "ACC-1" 5).1 =
        some (BankAccount.mk "ACC-1" "New" (Money.mk 9 "RUB") "" true 0 0 "RUB") ∧
      (p'.findById "ACC-1" 5).2 = p' :=
  c6_cache_update_refresh BankAccount
    (CachingProxy.mk
      (Repo.mk [("ACC-1", BankAccount.mk "ACC-1" "Old" (Money.mk 5 "RUB") "" true 0 0 "RUB")])
      [("ACC-1", CacheEntry.mk
          (BankAccount.mk "ACC-1" "Stale" (Money.mk 1 "RUB") "" true 0 0 "RUB") 1000)]
      60)
    (BankAccount.mk "ACC-1" "New" (Money.mk 9 "RUB") "" true 0 0 "RUB")
    (BankAccount.mk "ACC-1" "Old" (Money.mk 5 "RUB") "" true 0 0 "RUB") 5 rfl

/-! ### Claim C7 -/

/-- Claim C7: account creation through the command engine's validated
construction path fails with a Validation error when the name is empty,
or (with a well-formed name) when the initial balance amount is negative
— an error return persists nothing — and succeeds when both checks pass
(the remaining length validations of the constructor being satisfied),
creating and saving an account with exactly that name and initial
balance. -/
theorem c7_account_creation_validated (name : String) (m : Money)
    (number : String) (env : Nat → IdSeed) (w : World) :
    (name = "" → (CreateAccountCommand.fresh name m number).execute env w =
      .error (.validation "Account name cannot be empty")) ∧
    (¬name = "" → name.length ≤ 100 → m.amount < 0 →
      (CreateAccountCommand.fresh name m number).execute env w =
        .error (.validation "Initial balance cannot be negative")) ∧
    (¬name = "" → name.length ≤ 100 → 0 ≤ m.amount → number.length ≤ 20 →
      ∃ c' w' acc,
        (CreateAccountCommand.fresh name m number).execute env w = .ok (c', w') ∧
        c'.createdAccount = some acc ∧ acc.name = name ∧ acc.balance = m ∧
        acc.currency = m.currency ∧
        w'.accounts.findById acc.id = some acc) := by
  refine ⟨?_, ?_, ?_⟩
  · intro h
    unfold CreateAccountCommand.execute CreateAccountCommand.fresh
      CreateAccountCommand.doExecute EntityFactory.createBankAccount
      Validator.validateNotEmpty
    rw [if_pos h]
    rfl
  · intro h1 h2 h3
    have hfac : EntityFactory.createBankAccount name m number (env w.nextId) w.clock =
        .error (.validation ("Initial balance" ++ " cannot be negative")) := by
      unfold EntityFactory.createBankAccount Validator.validateNotEmpty
        Validator.validateMaxLength Validator.validateNonNegative
      rw [if_neg h1, if_neg (by omega), if_pos h3]
    unfold CreateAccountCommand.execute CreateAccountCommand.fresh
      CreateAccountCommand.doExecute
    dsimp only
    rw [hfac]
    rfl
  · intro h1 h2 h3 h4
    have hnn : ¬m.amount < 0 := not_lt.mpr h3
    have hacc : EntityFactory.createBankAccount name m number (env w.nextId) w.clock =
        .ok (BankAccount.mk (IdGenerator.generate "ACC" (env w.nextId)) name m number
          true w.clock w.clock m.currency) := by
      unfold EntityFactory.createBankAccount Validator.validateNotEmpty
        Validator.validateMaxLength Validator.validateNonNegative
      rw [if_neg h1, if_neg (by omega), if_neg hnn]
      unfold BankAccount.create Validator.validateNotEmpty
        Validator.validateMaxLength
      rw [IdGenerator.generate_valid "ACC" (env w.nextId) (by decide)]
      rw [if_neg h1, if_neg (by omega), if_neg (by omega)]
    have hexec : (CreateAccountCommand.fresh name m number).execute env w =
        .ok (CreateAccountCommand.mk name m number
              (some (BankAccount.mk (IdGenerator.generate "ACC" (env w.nextId)) name m
                number true w.clock w.clock m.currency)) true,
             World.mk (w.accounts.save (BankAccount.mk
                (IdGenerator.generate "ACC" (env w.nextId)) name m number true w.clock
                w.clock m.currency)) w.categories w.operations (w.nextId + 1)
                w.clock) := by
      unfold CreateAccountCommand.execute CreateAccountCommand.fresh
        CreateAccountCommand.doExecute
      dsimp only
      rw [hacc]
      rfl
    refine ⟨_, _, _, hexec, rfl, rfl, rfl, rfl, ?_⟩
    unfold Repo.save Repo.findById
    exact listFind?_upsert_self _ _ _

/-- Witness for C7: creating "Main" with 100000 RUB through the command
path succeeds with that name and balance saved. -/
theorem c7_account_creation_validated_witness :
    ∃ c' w' acc,
      (CreateAccountCommand.fresh "Main" (Money.mk 100000 "RUB") "").execute
          idTestEnv World.empty = .ok (c', w') ∧
      c'.createdAccount = some acc ∧ acc.name = "Main" ∧
      acc.balance = Money.mk 100000 "RUB" ∧ acc.currency = "RUB" ∧
      w'.accounts.findById acc.id = some acc :=
  (c7_account_creation_validated "Main" (Money.mk 100000 "RUB") ""
      idTestEnv World.empty).2.2 (by decide) (by decide) (by norm_num) (by decide)

/-! ### Claim C5 -/

/-- Claim C5: starting from a newly constructed (empty) history, after
`execute(A); execute(B); undo(); execute(C)` — with fresh commands, `B`
undoable, and every step succeeding — the applied history is exactly
`[A, C]` (each with its executed flag set), the cursor equals the history
length, nothing is available for redo, and `B` is no longer present in
the history. -/
theorem c5_history_discards_undone (σ : Type) (A B C : Cmd σ)
    (s₀ s₁ s₂ s₃ s₄ : σ) (h₁ h₂ h₃ h₄ : CommandHistory σ)
    (hA : A.executed = false) (hB : B.executed = false) (hC : C.executed = false)
    (hBu : B.canUndo = true)
    (e₁ : CommandHistory.execute CommandHistory.empty A s₀ = .ok (h₁, s₁))
    (e₂ : CommandHistory.execute h₁ B s₁ = .ok (h₂, s₂))
    (e₃ : CommandHistory.undo h₂ s₂ = .ok (h₃, s₃))
    (e₄ : CommandHistory.execute h₃ C s₃ = .ok (h₄, s₄)) :
    h₄.hist = [{ A with executed := true }, { C with executed := true }] ∧
    h₄.currentIndex = h₄.hist.length ∧
    h₄.canRedo = false ∧
    (¬B.label = A.label → ¬B.label = C.label →
      ∀ d ∈ h₄.hist, ¬d.label = B.label) := by
  -- step 1: execute A on the empty history
  unfold CommandHistory.execute CommandHistory.empty Cmd.executeB at e₁
  dsimp only at e₁
  rw [if_neg (by rw [hA]; simp), if_neg (by simp)] at e₁
  match hdA : A.doExec s₀ with
  | .error e => rw [hdA] at e₁; cases e₁
  | .ok sA =>
  rw [hdA] at e₁
  dsimp only at e₁
  simp only [List.nil_append, List.length_cons, List.length_nil] at e₁
  rw [Except.ok.injEq, Prod.mk.injEq] at e₁
  obtain ⟨hh₁, hs₁⟩ := e₁
  subst hh₁
  -- step 2: execute B
  unfold CommandHistory.execute Cmd.executeB at e₂
  dsimp only at e₂
  rw [if_neg (by rw [hB]; simp), if_neg (by simp)] at e₂
  match hdB : B.doExec s₁ with
  | .error e => rw [hdB] at e₂; cases e₂
  | .ok sB =>
  rw [hdB] at e₂
  dsimp only at e₂
  simp only [List.singleton_append, List.length_cons, List.length_nil] at e₂
  rw [Except.ok.injEq, Prod.mk.injEq] at e₂
  obtain ⟨hh₂, hs₂⟩ := e₂
  subst hh₂
  -- step 3: undo, which must hit B
  unfold CommandHistory.undo at e₃
  have hcan : CommandHistory.canUndo
      (CommandHistory.mk [{ A with executed := true }, { B with executed := true }]
        (0 + 1 + 1)) = true := hBu
  rw [if_pos hcan] at e₃
  unfold Cmd.undoB at e₃
  dsimp only at e₃
  have hget : [{ A with executed := true }, { B with executed := true }].get?
      (0 + 1 + 1 - 1) = some { B with executed := true } := rfl
  rw [hget] at e₃
  dsimp only at e₃
  rw [if_pos hBu, if_neg (by simp), if_neg (by rw [hBu]; simp)] at e₃
  match hdB' : B.doUndoF s₂ with
  | .error e => rw [hdB'] at e₃; cases e₃
  | .ok sB' =>
  rw [hdB'] at e₃
  dsimp only at e₃
  rw [Except.ok.injEq, Prod.mk.injEq] at e₃
  obtain ⟨hh₃, hs₃⟩ := e₃
  subst hh₃
  -- step 4: execute C truncates the undone B
  unfold CommandHistory.execute Cmd.executeB at e₄
  dsimp only at e₄
  rw [if_neg (by rw [hC]; simp), if_pos (by simp)] at e₄
  match hdC : C.doExec s₃ with
  | .error e => rw [hdC] at e₄; cases e₄
  | .ok sC =>
  rw [hdC] at e₄
  dsimp only at e₄
  rw [Except.ok.injEq, Prod.mk.injEq] at e₄
  obtain ⟨hh₄, hs₄⟩ := e₄
  subst hh₄
  refine ⟨?_, ?_, ?_, ?_⟩
  · simp
  · simp
  · unfold CommandHistory.canRedo
    simp
  · intro hab hcb d hd
    simp at hd
    rcases hd with hd | hd <;> rw [hd] <;> simp [Ne.symm hab, Ne.symm hcb]

/-- Witness for C5: three concrete counter commands over `σ = ℕ`; the
run goes through the theorem at this input. -/
theorem c5_history_discards_undone_witness :
    (CommandHistory.mk
        [Cmd.mk 1 true (fun s => .ok (s + 1)) (fun s => .ok (s - 1)) true,
         Cmd.mk 3 true (fun s => .ok (s + 4)) (fun s => .ok (s - 4)) true]
        2).hist =
      [{ Cmd.mk 1 true (fun s => .ok (s + 1)) (fun s => .ok (s - 1)) false
          with executed := true },
       { Cmd.mk 3 true (fun s => .ok (s + 4)) (fun s => .ok (s - 4)) false
          with executed := true }] ∧
    (CommandHistory.mk
        [Cmd.mk 1 true (fun s => .ok (s + 1)) (fun s => .ok (s - 1)) true,
         Cmd.mk 3 true (fun s => .ok (s + 4)) (fun s => .ok (s - 4)) true]
        2).currentIndex =
      (CommandHistory.mk
        [Cmd.mk 1 true (fun s => .ok (s + 1)) (fun s => .ok (s - 1)) true,
         Cmd.mk 3 true (fun s => .ok (s + 4)) (fun s => .ok (s - 4)) true]
        2).hist.length ∧
    (CommandHistory.mk
        [Cmd.mk 1 true (fun s => .ok (s + 1)) (fun s => .ok (s - 1)) true,
         Cmd.mk 3 true (fun s => .ok (s + 4)) (fun s => .ok (s - 4)) true]
        2).canRedo = false ∧
    (¬(2 : Nat) = 1 → ¬(2 : Nat) = 3 →
      ∀ d ∈ (CommandHistory.mk
        [Cmd.mk 1 true (fun s => .ok (s + 1)) (fun s => .ok (s - 1)) true,
         Cmd.mk 3 true (fun s => .ok (s + 4)) (fun s => .ok (s - 4)) true]
        2).hist, ¬d.label = 2) :=
  c5_history_discards_undone Nat
    (Cmd.mk 1 true (fun s => .ok (s + 1)) (fun s => .ok (s - 1)) false)
    (Cmd.mk 2 true (fun s => .ok (s + 2)) (fun s => .ok (s - 2)) false)
    (Cmd.mk 3 true (fun s => .ok (s + 4)) (fun s => .ok (s - 4)) false)
    0 1 3 1 5 (CommandHistory.mk
      [Cmd.mk 1 true (fun s => .ok (s + 1)) (fun s => .ok (s - 1)) true] 1)
    (CommandHistory.mk
      [Cmd.mk 1 true (fun s => .ok (s + 1)) (fun s => .ok (s - 1)) true,
       Cmd.mk 2 true (fun s => .ok (s + 2)) (fun s => .ok (s - 2)) true] 2)
    (CommandHistory.mk
      [Cmd.mk 1 true (fun s => .ok (s + 1)) (fun s => .ok (s - 1)) true,
       Cmd.mk 2 true (fun s => .ok (s + 2)) (fun s => .ok (s - 2)) false] 1)
    (CommandHistory.mk
      [Cmd.mk 1 true (fun s => .ok (s + 1)) (fun s => .ok (s - 1)) true,
       Cmd.mk 3 true (fun s => .ok (s + 4)) (fun s => .ok (s - 4)) true] 2)
    rfl rfl rfl rfl rfl rfl rfl rfl

/-! ### Claim C10 -/

/-- Claim C10: undoing an executed Transfer command moves the amount back
from the destination to the source and updates both accounts, but leaves
the operation repository (and the category repository, and the command's
two recorded operations) completely unchanged: the Expense/Income records
that `execute()` saved are not removed. -/
theorem c10_transfer_undo_frame (c : TransferCommand) (w : World)
    (c' : TransferCommand) (w' : World) (fa tb : BankAccount)
    (hfa : w.accounts.findById c.fromAccountId = some fa)
    (htb : w.accounts.findById c.toAccountId = some tb)
    (hkf : fa.id = c.fromAccountId) (hkt : tb.id = c.toAccountId)
    (hundo : c.undo w = .ok (c', w')) :
    w'.operations = w.operations ∧
    w'.categories = w.categories ∧
    c'.withdrawOperation = c.withdrawOperation ∧
    c'.depositOperation = c.depositOperation ∧
    ∃ fa' tb', w'.accounts.findById c.fromAccountId = some fa' ∧
      w'.accounts.findById c.toAccountId = some tb' ∧
      fa'.balance.amount = fa.balance.amount + c.amount.amount ∧
      tb'.balance.amount = tb.balance.amount - c.amount.amount := by
  unfold TransferCommand.undo at hundo
  by_cases hex : c.executed = true
  · rw [if_neg (by simp [hex])] at hundo
    unfold TransferCommand.doUndo at hundo
    rw [hfa, htb] at hundo
    dsimp only at hundo
    match htr : tb.transfer fa c.amount w.clock with
    | .error e => rw [htr] at hundo; cases hundo
    | .ok (tb', fa') =>
    rw [htr] at hundo
    dsimp only at hundo
    rcases BankAccount.transfer_ok htr with ⟨hwd, hdp, _, _, hne⟩
    rcases BankAccount.withdraw_ok hwd with ⟨htbrec, _, _, _, _, _, _, _⟩
    rcases BankAccount.deposit_ok hdp with ⟨hfarec, _, _, _, _⟩
    have hidf : HasId.getId fa' = c.fromAccountId := by
      show fa'.id = c.fromAccountId
      rw [hfarec]
      exact hkf
    have hidt : HasId.getId tb' = c.toAccountId := by
      show tb'.id = c.toAccountId
      rw [htbrec]
      exact hkt
    have hne' : ¬tb.id = fa.id := hne
    have hnekey : ¬c.toAccountId = c.fromAccountId := by
      rw [← hkf, ← hkt]
      exact hne'
    have h1 : w.accounts.findById (HasId.getId fa') = some fa := by
      rw [hidf]; exact hfa
    rw [Repo.update_of_found h1] at hundo
    dsimp only at hundo
    have h2 : (w.accounts.save fa').findById (HasId.getId tb') = some tb := by
      rw [hidt]
      unfold Repo.save Repo.findById
      rw [hidf]
      rw [listFind?_upsert_ne _ _ _ _ hnekey]
      exact htb
    rw [Repo.update_of_found h2] at hundo
    dsimp only at hundo
    rw [Except.ok.injEq, Prod.mk.injEq] at hundo
    obtain ⟨hc', hw'⟩ := hundo
    subst hc'; subst hw'
    refine ⟨rfl, rfl, rfl, rfl, fa', tb', ?_, ?_, ?_, ?_⟩
    · show ((w.accounts.save fa').save tb').findById c.fromAccountId = some fa'
      unfold Repo.save Repo.findById
      rw [hidt, hidf]
      rw [listFind?_upsert_ne _ _ _ _ (Ne.symm hnekey), listFind?_upsert_self]
    · show ((w.accounts.save fa').save tb').findById c.toAccountId = some tb'
      unfold Repo.save Repo.findById
      rw [hidt]
      rw [listFind?_upsert_self]
    · rw [hfarec]
    · rw [htbrec]
  · rw [if_pos (by simp [hex])] at hundo
    cases hundo

/-- The two-account world used by the C10 witness. -/
def c10World : World :=
  World.mk
    (Repo.mk [("ACC-o", BankAccount.mk "ACC-o" "A" (Money.mk 70 "RUB") "" true 0 0 "RUB"),
              ("ACC-t", BankAccount.mk "ACC-t" "B" (Money.mk 130 "RUB") "" true 0 0 "RUB")])
    Repo.empty
    (Repo.mk [("OP-w", Operation.mk "OP-w" OperationType.expense "ACC-o"
                (Money.mk 30 "RUB") 0 "t" "CAT-t" 0 0 false ""),
              ("OP-d", Operation.mk "OP-d" OperationType.income "ACC-t"
                (Money.mk 30 "RUB") 0 "t" "CAT-t" 0 0 false "")])
    9 3

/-- The executed Transfer command used by the C10 witness. -/
def c10Cmd : TransferCommand :=
  TransferCommand.mk "ACC-o" "ACC-t" (Money.mk 30 "RUB") "t"
    (some (Operation.mk "OP-w" OperationType.expense "ACC-o" (Money.mk 30 "RUB")
      0 "t" "CAT-t" 0 0 false ""))
    (some (Operation.mk "OP-d" OperationType.income "ACC-t" (Money.mk 30 "RUB")
      0 "t" "CAT-t" 0 0 false ""))
    true

/-- The result of undoing the C10 witness command. -/
def c10Run : TransferCommand × World :=
  (c10Cmd.undo c10World).toOption.getD (c10Cmd, c10World)

/-- Witness for C10 at the concrete two-account world. -/
theorem c10_transfer_undo_frame_witness :
    c10Run.2.operations = c10World.operations ∧
    c10Run.2.categories = c10World.categories ∧
    c10Run.1.withdrawOperation = c10Cmd.withdrawOperation ∧
    c10Run.1.depositOperation = c10Cmd.depositOperation ∧
    ∃ fa' tb', c10Run.2.accounts.findById c10Cmd.fromAccountId = some fa' ∧
      c10Run.2.accounts.findById c10Cmd.toAccountId = some tb' ∧
      fa'.balance.amount = (Money.mk (70 : Decimal) "RUB").amount + c10Cmd.amount.amount ∧
      tb'.balance.amount = (Money.mk (130 : Decimal) "RUB").amount - c10Cmd.amount.amount :=
  c10_transfer_undo_frame c10Cmd c10World c10Run.1 c10Run.2
    (BankAccount.mk "ACC-o" "A" (Money.mk 70 "RUB") "" true 0 0 "RUB")
    (BankAccount.mk "ACC-t" "B" (Money.mk 130 "RUB") "" true 0 0 "RUB")
    rfl rfl rfl rfl rfl

theorem EntityFactory.createOperation_ok {t : OperationType} {accId : Id}
    {m : Money} {catId : Id} {descr : String} {date : DateTime} {seed : IdSeed}
    {now : DateTime} {op : Operation}
    (h : EntityFactory.createOperation t accId m catId descr date seed now = .ok op) :
    op = Operation.mk (IdGenerator.generate "OP" seed) t accId m date descr catId
      now now false "" ∧ 0 < m.amount := by
  unfold EntityFactory.createOperation at h
  match h1 : Validator.validateId accId with
  | .error e => rw [h1] at h; cases h
  | .ok u1 =>
  rw [h1] at h
  dsimp only at h
  match h2 : Validator.validateId catId with
  | .error e => rw [h2] at h; cases h
  | .ok u2 =>
  rw [h2] at h
  dsimp only at h
  unfold Validator.validatePositive at h
  by_cases h3 : m.amount ≤ 0
  · rw [if_pos h3] at h
    dsimp only at h
    cases h
  · rw [if_neg h3] at h
    dsimp only at h
    unfold Validator.validateMaxLength at h
    by_cases h4 : 500 < descr.length
    · rw [if_pos h4] at h
      dsimp only at h
      cases h
    · rw [if_neg h4] at h
      dsimp only at h
      unfold Operation.create at h
      rw [IdGenerator.generate_valid "OP" seed (by decide)] at h
      dsimp only at h
      rw [h1] at h
      dsimp only at h
      rw [h2] at h
      dsimp only at h
      have hpos : 0 < m.amount := lt_of_not_le h3
      have hip : m.isPositive = true := by
        unfold Money.isPositive
        simpa using hpos
      rw [if_neg (by simp [hip])] at h
      unfold Validator.validateMaxLength at h
      rw [if_neg h4] at h
      dsimp only at h
      rw [Except.ok.injEq] at h
      exact ⟨h.symm, hpos⟩

/-! ### Claim C3 -/

/-- Claim C3: after a successfully executed AddOperation command, `undo()`
succeeds, removes the created operation from the operation repository,
and overwrites the target account's balance with the exact pre-execute
snapshot (the whole `Money` value, not a recomputed difference).  The two
hypotheses are the repository key/currency invariants every reachable
state satisfies: stored accounts are keyed by their own id and carry a
balance in the account's currency. -/
theorem c3_addoperation_undo_restores (t : OperationType) (accId : Id)
    (m : Money) (catId : Id) (descr : String) (env : Nat → IdSeed) (w : World)
    (hkey : ∀ p ∈ w.accounts.storage, p.2.id = p.1)
    (hbc : ∀ p ∈ w.accounts.storage, p.2.balance.currency = p.2.currency)
    (c₁ : AddOperationCommand) (w₁ : World)
    (hex : (AddOperationCommand.fresh t accId m catId descr).execute env w = .ok (c₁, w₁)) :
    ∃ op c₂ w₂, c₁.createdOperation = some op ∧
      c₁.undo w₁ = .ok (c₂, w₂) ∧
      c₂.createdOperation = none ∧
      w₂.operations.findById op.id = none ∧
      (w₂.accounts.findById accId).map BankAccount.balance =
        (w.accounts.findById accId).map BankAccount.balance := by
  unfold AddOperationCommand.execute AddOperationCommand.fresh
    AddOperationCommand.doExecute at hex
  dsimp only at hex
  rw [if_neg (by simp)] at hex
  match hacc : w.accounts.findById accId with
  | none => rw [hacc] at hex; cases hex
  | some account =>
  rw [hacc] at hex
  dsimp only at hex
  match hopc : EntityFactory.createOperation t accId m catId descr w.clock
      (env w.nextId) w.clock with
  | .error e => rw [hopc] at hex; cases hex
  | .ok op =>
  rw [hopc] at hex
  dsimp only at hex
  rcases EntityFactory.createOperation_ok hopc with ⟨hoprec, hpos⟩
  have hbid : op.bankAccountId = accId := by rw [hoprec]
  -- facts about the looked-up account
  have hmemacc := listFind?_mem hacc
  have hida : account.id = accId := hkey _ hmemacc
  have hbca : account.balance.currency = account.currency := hbc _ hmemacc
  -- the processing service
  unfold processOperation at hex
  dsimp only at hex
  rw [hbid, hacc] at hex
  dsimp only at hex
  match hda : (if op.isIncome = true then account.deposit op.amount w.clock
      else account.withdraw op.amount w.clock) with
  | .error e => rw [hda] at hex; cases hex
  | .ok account' =>
  rw [hda] at hex
  dsimp only at hex
  have haccfacts : account'.id = account.id ∧ account'.currency = account.currency ∧
      account'.balance.currency = account.balance.currency := by
    by_cases hinc : op.isIncome = true
    · rw [if_pos hinc] at hda
      rcases BankAccount.deposit_ok hda with ⟨hrec, _, _, _, _⟩
      rw [hrec]
      exact ⟨rfl, rfl, rfl⟩
    · rw [if_neg hinc] at hda
      rcases BankAccount.withdraw_ok hda with ⟨hrec, _, _, _, _, _, _, _⟩
      rw [hrec]
      exact ⟨rfl, rfl, rfl⟩
  obtain ⟨hid', hcur', hbal'⟩ := haccfacts
  have hidkey : HasId.getId account' = accId := by
    show account'.id = accId
    rw [hid', hida]
  have hupd : Repo.update w.accounts account' = .ok (w.accounts.save account') := by
    apply Repo.update_of_found (x := account)
    rw [hidkey]
    exact hacc
  rw [hupd] at hex
  dsimp only at hex
  have hfind' : (Repo.save w.accounts account').findById accId = some account' := by
    unfold Repo.save Repo.findById
    rw [← hidkey]
    exact listFind?_upsert_self _ _ _
  rw [hfind'] at hex
  rw [Except.ok.injEq, Prod.mk.injEq] at hex
  obtain ⟨hc₁, hw₁⟩ := hex
  subst hc₁
  subst hw₁
  -- now run the undo
  have hkey2 : HasId.getId { account' with balance := account.balance, updatedAt := w.clock } = accId := hidkey
  have hfin2 : ((w.accounts.save account').save { account' with balance := account.balance, updatedAt := w.clock }).findById accId = some { account' with balance := account.balance, updatedAt := w.clock } := by
    unfold Repo.save Repo.findById
    rw [hkey2]
    exact listFind?_upsert_self _ _ _
  refine ⟨op,
    AddOperationCommand.mk t accId m catId descr none (some account') account.balance false,
    World.mk ((w.accounts.save account').save { account' with balance := account.balance, updatedAt := w.clock }) w.categories ((w.operations.save op).remove op.id) (w.nextId + 1) w.clock,
    rfl, ?_, rfl, ?_, ?_⟩
  · unfold AddOperationCommand.undo AddOperationCommand.doUndo
    dsimp only
    rw [if_neg (by simp)]
    have hrb : account'.recalculateBalance account.balance w.clock = .ok { account' with balance := account.balance, updatedAt := w.clock } := by
      unfold BankAccount.recalculateBalance
      rw [if_neg (by rw [hbca, ← hcur']; simp)]
    rw [hrb]
    dsimp only
    have hupd2 : Repo.update (w.accounts.save account') { account' with balance := account.balance, updatedAt := w.clock } = .ok ((w.accounts.save account').save { account' with balance := account.balance, updatedAt := w.clock }) := by
      apply Repo.update_of_found (x := account')
      rw [hkey2]
      exact hfind'
    rw [hupd2]
  · unfold Repo.remove Repo.findById
    exact listFind?_erase_self _ _
  · dsimp only
    rw [hfin2]
    rfl

/-- The one-account world used by the C3 witness. -/
def c3World : World :=
  World.mk
    (Repo.mk [("ACC-m", BankAccount.mk "ACC-m" "Main" (Money.mk 500 "RUB") "" true 0 0 "RUB")])
    Repo.empty Repo.empty 4 2

/-- The C3 witness run: execute an income AddOperation of 50 RUB. -/
def c3Run : AddOperationCommand × World :=
  ((AddOperationCommand.fresh OperationType.income "ACC-m" (Money.mk 50 "RUB")
      "CAT-s" "pay").execute idTestEnv c3World).toOption.getD
    (AddOperationCommand.fresh OperationType.income "ACC-m" (Money.mk 50 "RUB")
      "CAT-s" "pay", c3World)

/-- Witness for C3 at the concrete one-account world. -/
theorem c3_addoperation_undo_restores_witness :
    ∃ op c₂ w₂, c3Run.1.createdOperation = some op ∧
      c3Run.1.undo c3Run.2 = .ok (c₂, w₂) ∧
      c₂.createdOperation = none ∧
      w₂.operations.findById op.id = none ∧
      (w₂.accounts.findById "ACC-m").map BankAccount.balance =
        (c3World.accounts.findById "ACC-m").map BankAccount.balance :=
  c3_addoperation_undo_restores OperationType.income "ACC-m" (Money.mk 50 "RUB")
    "CAT-s" "pay" idTestEnv c3World (by decide) (by decide) c3Run.1 c3Run.2 rfl

/-! ### Claim C4 -/

/-- Claim C4: a Transfer command between two distinct active accounts
whose source balance is below the transfer amount fails with the
insufficient-funds error before any write, so (the error being raised
before any repository mutation in this embedding) both balances and the
account and operation repositories stand unchanged; and — second
conjunct — when the deposit into the destination fails after a
successful withdrawal, the compensating deposit credits the amount back
(restoring the source balance exactly) and the original error
propagates. -/
theorem c4_transfer_insufficient_funds :
    (∀ (env : Nat → IdSeed) (w : World) (fromId toId : Id) (m : Money)
      (fa tb : BankAccount),
      w.accounts.findById fromId = some fa →
      w.accounts.findById toId = some tb →
      fa.isActive = true → tb.isActive = true → ¬fa.id = tb.id →
      m.currency = fa.currency → fa.balance.currency = m.currency →
      0 < m.amount → fa.balance.amount < m.amount →
      (TransferCommand.fresh fromId toId m).execute env w =
        .error (.insufficientFunds m.amount fa.balance.amount)) ∧
    (∀ (src tgt src' : BankAccount) (m : Money) (now : DateTime) (e : Err),
      ¬src.id = tgt.id →
      src.withdraw m now = .ok src' → tgt.deposit m now = .error e →
      (src.isActive && tgt.isActive) = true →
      src.transfer tgt m now = .error e ∧
      ∃ src'', src'.deposit m now = .ok src'' ∧
        src''.balance.amount = src.balance.amount ∧
        src''.balance.currency = src.balance.currency) := by
  constructor
  · intro env w fromId toId m fa tb hfa htb hA hB hne hc hbc hp hlt
    unfold TransferCommand.execute TransferCommand.fresh TransferCommand.doExecute
    dsimp only
    rw [if_neg (by simp)]
    rw [hfa, htb]
    dsimp only
    unfold BankAccount.transfer
    rw [if_neg (by simp [hA, hB])]
    rw [if_neg hne]
    rw [BankAccount.withdraw_insufficient w.clock hA hc hbc hp hlt]
  · intro src tgt src' m now e hne hw hd hact
    simp only [Bool.and_eq_true] at hact
    obtain ⟨hactS, hactT⟩ := hact
    rcases BankAccount.withdraw_ok hw with
      ⟨hrec, hc1, hc2, hp, _, _, hne1, hlen⟩
    subst hrec
    have hip : m.isPositive = true := by
      unfold Money.isPositive
      simpa using hp
    have hdep : ({ src with balance := Money.mk (src.balance.amount - m.amount) src.balance.currency, updatedAt := now } : BankAccount).deposit m now = .ok { src with balance := Money.mk (src.balance.amount - m.amount + m.amount) src.balance.currency, updatedAt := now } := by
      unfold BankAccount.deposit
      rw [if_neg (by simp [hactS])]
      rw [if_neg (by simp [hc1])]
      rw [if_neg (by simp [hip])]
      unfold Money.add
      dsimp only
      rw [if_neg (by simp [hc2])]
      rw [Money.make_ok_of _ _ hne1 hlen]
    constructor
    · unfold BankAccount.transfer
      rw [if_neg (by simp [hactS, hactT])]
      rw [if_neg hne]
      rw [hw]
      dsimp only
      rw [hd]
      dsimp only
      rw [hdep]
    · refine ⟨_, hdep, ?_, rfl⟩
      dsimp only
      ring

/-- The two-account world used by the C4 witness: the source holds 100
RUB, the target is inactive; a transfer of 20000 RUB hits the
insufficient-funds error, and a withdraw/deposit pair where the deposit
fails is compensated. -/
def c4World : World :=
  World.mk
    (Repo.mk [("ACC-a", BankAccount.mk "ACC-a" "A" (Money.mk 100 "RUB") "" true 0 0 "RUB"),
              ("ACC-b", BankAccount.mk "ACC-b" "B" (Money.mk 7 "RUB") "" true 0 0 "RUB")])
    Repo.empty Repo.empty 3 1

/-- Witness for C4: both conjuncts of the theorem at concrete inputs —
the Transfer(A→B, 20000) scenario with A holding only 100 RUB, and a
currency-mismatch deposit failure compensated after a successful
withdrawal. -/
theorem c4_transfer_insufficient_funds_witness :
    (TransferCommand.fresh "ACC-a" "ACC-b" (Money.mk 20000 "RUB")).execute
        idTestEnv c4World =
      .error (.insufficientFunds 20000 100) ∧
    ((BankAccount.mk "ACC-a" "A" (Money.mk 100 "RUB") "" true 0 0 "RUB").transfer
        (BankAccount.mk "ACC-b" "B" (Money.mk 7 "USD") "" true 0 0 "USD")
        (Money.mk 30 "RUB") 2 =
      .error (.validation "Currency mismatch") ∧
      ∃ src2,
        (BankAccount.mk "ACC-a" "A" (Money.mk 70 "RUB") "" true 0 2 "RUB").deposit
          (Money.mk 30 "RUB") 2 = .ok src2 ∧
        src2.balance.amount = (100 : Decimal) ∧
        src2.balance.currency = "RUB") := by
  constructor
  · exact c4_transfer_insufficient_funds.1 idTestEnv c4World "ACC-a" "ACC-b"
      (Money.mk 20000 "RUB")
      (BankAccount.mk "ACC-a" "A" (Money.mk 100 "RUB") "" true 0 0 "RUB")
      (BankAccount.mk "ACC-b" "B" (Money.mk 7 "RUB") "" true 0 0 "RUB")
      rfl rfl rfl rfl (by decide) rfl rfl (by norm_num) (by norm_num)
  · have hw : (BankAccount.mk "ACC-a" "A" (Money.mk 100 "RUB") "" true 0 0 "RUB").withdraw (Money.mk 30 "RUB") 2 = .ok (BankAccount.mk "ACC-a" "A" (Money.mk 70 "RUB") "" true 0 2 "RUB") := by
      rw [BankAccount.withdraw_ok_of
        (BankAccount.mk "ACC-a" "A" (Money.mk 100 "RUB") "" true 0 0 "RUB")
        (Money.mk 30 "RUB") 2 rfl rfl rfl (by norm_num) (by norm_num)
        (by decide) (by decide)]
      dsimp only
      rw [show Money.mk ((100 : Decimal) - 30) "RUB" = Money.mk 70 "RUB" by norm_num]
    have h := c4_transfer_insufficient_funds.2
      (BankAccount.mk "ACC-a" "A" (Money.mk 100 "RUB") "" true 0 0 "RUB")
      (BankAccount.mk "ACC-b" "B" (Money.mk 7 "USD") "" true 0 0 "USD")
      (BankAccount.mk "ACC-a" "A" (Money.mk 70 "RUB") "" true 0 2 "RUB")
      (Money.mk 30 "RUB") 2 (.validation "Currency mismatch")
      (by decide) hw (by rfl) rfl
    rcases h with ⟨h1, src2, h2, h3, h4⟩
    exact ⟨h1, src2, h2, h3, h4⟩

/-! ### The reachable-state invariant behind claim C1 -/

/-- The invariant maintained by the command layer over the world state
under a fixed entropy oracle `env`: accounts are keyed by their own
generated id, every stored id was generated at an already-spent call
index (so, for a collision-free oracle, future ids are fresh), account
currencies are valid, the stored balance of every account is exactly the
signed sum of its operations (this is where a zero initial balance
matters), and every operation on an account carries the account's
currency. -/
structure WorldInv (env : Nat → IdSeed) (w : World) : Prop where
  accKey : ∀ p ∈ w.accounts.storage, p.2.id = p.1
  accFresh : ∀ p ∈ w.accounts.storage, ∃ k, k < w.nextId ∧ p.1 = IdGenerator.generate "ACC" (env k)
  accNodup : (w.accounts.storage.map Prod.fst).Nodup
  opFresh : ∀ p ∈ w.operations.storage, ∃ k, k < w.nextId ∧ p.1 = IdGenerator.generate "OP" (env k)
  opAccFresh : ∀ p ∈ w.operations.storage, ∃ k, k < w.nextId ∧ p.2.bankAccountId = IdGenerator.generate "ACC" (env k)
  balCur : ∀ p ∈ w.accounts.storage, p.2.balance.currency = p.2.currency
  curValid : ∀ p ∈ w.accounts.storage, ¬p.2.currency = "" ∧ p.2.currency.length ≤ 3
  balSum : ∀ p ∈ w.accounts.storage, p.2.balance.amount = opSum w.operations.storage p.1
  opCur : ∀ p ∈ w.accounts.storage, ∀ q ∈ w.operations.storage,
    q.2.bankAccountId = p.1 → q.2.amount.currency = p.2.currency

theorem World.empty_inv (env : Nat → IdSeed) : WorldInv env World.empty := by
  refine ⟨?_, ?_, ?_, ?_, ?_, ?_, ?_, ?_, ?_⟩ <;>
    first
      | (intro p hp; simp [World.empty, Repo.empty] at hp)
      | simp [World.empty, Repo.empty]

theorem opSum_append_single (l : List (Id × Operation)) (k : Id) (op : Operation)
    (aid : Id) :
    opSum (l ++ [(k, op)]) aid =
      opSum l aid + (if op.bankAccountId = aid then signedAmount op else 0) := by
  unfold opSum sumSigned
  rw [List.filter_append, List.map_append, List.map_append, List.sum_append]
  by_cases h : op.bankAccountId = aid
  · simp [List.filter_cons, h]
  · simp [List.filter_cons, h]

theorem opSum_eq_zero {l : List (Id × Operation)} {aid : Id}
    (h : ∀ q ∈ l, ¬q.2.bankAccountId = aid) : opSum l aid = 0 := by
  unfold opSum sumSigned
  have : l.filter (fun p => p.2.bankAccountId == aid) = [] := by
    rw [List.filter_eq_nil_iff]
    intro q hq
    simp [h q hq]
  rw [this]
  simp

/-- Under the invariant, `checkAccountBalance` succeeds on every stored
account and reports no discrepancy; the calculated balance's amount is
exactly the stored balance's amount. -/
theorem checkAccountBalance_noDiscrepancy (env : Nat → IdSeed) (w : World)
    (hinv : WorldInv env w) (aid : Id) (acc : BankAccount)
    (hacc : w.accounts.findById aid = some acc) :
    ∃ r, checkAccountBalance w aid = .ok r ∧ r.hasDiscrepancy = false ∧
      r.balance = acc.balance ∧
      r.calculatedBalance.amount = acc.balance.amount ∧
      r.calculatedBalance.currency = acc.currency := by
  have hmem := listFind?_mem hacc
  have hcur := hinv.curValid _ hmem
  have hbc := hinv.balCur _ hmem
  have hsum := hinv.balSum _ hmem
  have hops : ∀ op ∈ w.operations.findByAccount aid,
      op.amount.currency = acc.currency := by
    intro op hop
    rcases mem_findByAccount hop with ⟨p, hp, hpe, hbid⟩
    have := hinv.opCur _ hmem p hp (by rw [hpe]; exact hbid)
    rw [← hpe]
    exact this
  unfold checkAccountBalance
  rw [hacc]
  dsimp only
  unfold Money.zeroM
  rw [Money.make_ok_of 0 acc.currency hcur.1 hcur.2]
  dsimp only
  rw [foldlM_reconcile_ok _ acc.currency 0 hcur.1 hcur.2 hops]
  dsimp only
  have hcalc : (0 : Decimal) + sumSigned (w.operations.findByAccount aid) =
      acc.balance.amount := by
    rw [sumSigned_findByAccount, ← hsum]
    ring
  have heq : acc.balance.equals
      (Money.mk (0 + sumSigned (w.operations.findByAccount aid)) acc.currency) = true := by
    unfold Money.equals
    rw [Bool.and_eq_true]
    constructor
    · apply decide_eq_true
      rw [hcalc]
      dsimp only
      rw [show acc.balance.amount - acc.balance.amount = 0 by ring, abs_zero]
      unfold moneyEps
      norm_num
    · rw [hbc]
      simp
  refine ⟨_, rfl, ?_, rfl, ?_, rfl⟩
  · dsimp only
    rw [heq]
    rfl
  · dsimp only
    exact hcalc

theorem acc_gen_fresh {env : Nat → IdSeed} (henv : IdGenerator.EnvInj env)
    {w : World} (hinv : WorldInv env w) {n : Nat} (hn : w.nextId ≤ n) :
    ∀ p ∈ w.accounts.storage, ¬p.1 = IdGenerator.generate "ACC" (env n) := by
  intro p hp h
  rcases hinv.accFresh p hp with ⟨k, hk, hpk⟩
  rw [hpk] at h
  have := henv "ACC" k n h
  omega

theorem op_gen_fresh {env : Nat → IdSeed} (henv : IdGenerator.EnvInj env)
    {w : World} (hinv : WorldInv env w) {n : Nat} (hn : w.nextId ≤ n) :
    ∀ p ∈ w.operations.storage, ¬p.1 = IdGenerator.generate "OP" (env n) := by
  intro p hp h
  rcases hinv.opFresh p hp with ⟨k, hk, hpk⟩
  rw [hpk] at h
  have := henv "OP" k n h
  omega

theorem opacc_gen_fresh {env : Nat → IdSeed} (henv : IdGenerator.EnvInj env)
    {w : World} (hinv : WorldInv env w) {n : Nat} (hn : w.nextId ≤ n) :
    ∀ q ∈ w.operations.storage, ¬q.2.bankAccountId = IdGenerator.generate "ACC" (env n) := by
  intro q hq h
  rcases hinv.opAccFresh q hq with ⟨k, hk, hqk⟩
  rw [hqk] at h
  have := henv "ACC" k n h
  omega

theorem EntityFactory.createBankAccount_ok {name : String} {m : Money}
    {number : String} {seed : IdSeed} {now : DateTime} {acc : BankAccount}
    (h : EntityFactory.createBankAccount name m number seed now = .ok acc) :
    acc = BankAccount.mk (IdGenerator.generate "ACC" seed) name m number true now
      now m.currency ∧ 0 ≤ m.amount := by
  unfold EntityFactory.createBankAccount Validator.validateNotEmpty
    Validator.validateMaxLength Validator.validateNonNegative at h
  by_cases h1 : name = ""
  · rw [if_pos h1] at h; cases h
  · rw [if_neg h1] at h
    dsimp only at h
    by_cases h2 : 100 < name.length
    · rw [if_pos h2] at h; cases h
    · rw [if_neg h2] at h
      dsimp only at h
      by_cases h3 : m.amount < 0
      · rw [if_pos h3] at h; cases h
      · rw [if_neg h3] at h
        dsimp only at h
        unfold BankAccount.create Validator.validateNotEmpty
          Validator.validateMaxLength at h
        rw [IdGenerator.generate_valid "ACC" seed (by decide)] at h
        dsimp only at h
        rw [if_neg h1, if_neg h2] at h
        dsimp only at h
        by_cases h4 : 20 < number.length
        · rw [if_pos h4] at h; cases h
        · rw [if_neg h4] at h
          dsimp only at h
          rw [Except.ok.injEq] at h
          exact ⟨h.symm, not_lt.mp h3⟩

theorem applyStep_createAccount_inv (env : Nat → IdSeed)
    (henv : IdGenerator.EnvInj env) (w w' : World) (name : String)
    (amount : Decimal) (currency number : String) (hz : amount = 0)
    (hinv : WorldInv env w)
    (h : applyStep env w (CoreStep.createAccount name amount currency number) = .ok w') :
    WorldInv env w' := by
  unfold applyStep at h
  dsimp only at h
  match hm : Money.make amount currency with
  | .error e => rw [hm] at h; cases h
  | .ok m =>
  rw [hm] at h
  dsimp only at h
  rcases Money.make_ok hm with ⟨hmrec, hcne, hclen⟩
  unfold CreateAccountCommand.execute CreateAccountCommand.fresh
    CreateAccountCommand.doExecute at h
  dsimp only at h
  rw [if_neg (by simp)] at h
  match hacc : EntityFactory.createBankAccount name m number (env w.nextId) w.clock with
  | .error e => rw [hacc] at h; cases h
  | .ok acc =>
  rw [hacc] at h
  dsimp only at h
  rw [Except.ok.injEq] at h
  subst h
  rcases EntityFactory.createBankAccount_ok hacc with ⟨haccrec, hnn⟩
  -- the saved id is fresh among the account keys
  have hfresh : ∀ p ∈ w.accounts.storage, ¬p.1 = HasId.getId acc := by
    intro p hp
    rw [haccrec]
    exact acc_gen_fresh henv hinv (le_refl _) p hp
  have hsave : (w.accounts.save acc).storage =
      w.accounts.storage ++ [(HasId.getId acc, acc)] := by
    unfold Repo.save
    exact listUpsert_append _ _ _ hfresh
  have hgid : HasId.getId acc = IdGenerator.generate "ACC" (env w.nextId) := by
    rw [haccrec]
    rfl
  refine ⟨?_, ?_, ?_, ?_, ?_, ?_, ?_, ?_, ?_⟩ <;> dsimp only
  · -- accKey
    rw [hsave]
    intro p hp
    rcases List.mem_append.mp hp with hp | hp
    · exact hinv.accKey p hp
    · simp at hp
      rw [hp, hgid, haccrec]
  · -- accFresh
    rw [hsave]
    intro p hp
    rcases List.mem_append.mp hp with hp | hp
    · rcases hinv.accFresh p hp with ⟨k, hk, hpk⟩
      exact ⟨k, by omega, hpk⟩
    · simp at hp
      rw [hp]
      exact ⟨w.nextId, by omega, hgid⟩
  · -- accNodup
    rw [hsave, List.map_append, List.nodup_append]
    refine ⟨hinv.accNodup, by simp, ?_⟩
    intro x hx hx2
    simp at hx2
    rcases List.mem_map.mp hx with ⟨p, hp, hpx⟩
    exact hfresh p hp (by rw [hpx, hx2])
  · -- opFresh
    intro p hp
    rcases hinv.opFresh p hp with ⟨k, hk, hpk⟩
    exact ⟨k, by omega, hpk⟩
  · -- opAccFresh
    intro p hp
    rcases hinv.opAccFresh p hp with ⟨k, hk, hpk⟩
    exact ⟨k, by omega, hpk⟩
  · -- balCur
    rw [hsave]
    intro p hp
    rcases List.mem_append.mp hp with hp | hp
    · exact hinv.balCur p hp
    · simp at hp
      rw [hp, haccrec]
  · -- curValid
    rw [hsave]
    intro p hp
    rcases List.mem_append.mp hp with hp | hp
    · exact hinv.curValid p hp
    · simp at hp
      rw [hp, haccrec]
      dsimp only
      rw [hmrec]
      exact ⟨hcne, hclen⟩
  · -- balSum
    rw [hsave]
    intro p hp
    rcases List.mem_append.mp hp with hp | hp
    · exact hinv.balSum p hp
    · simp at hp
      rw [hp]
      dsimp only
      rw [hgid, haccrec]
      dsimp only
      rw [hmrec]
      dsimp only
      rw [hz]
      exact (opSum_eq_zero (opacc_gen_fresh henv hinv (le_refl _))).symm
  · -- opCur
    rw [hsave]
    intro p hp q hq hqp
    rcases List.mem_append.mp hp with hp | hp
    · exact hinv.opCur p hp q hq hqp
    · exfalso
      apply opacc_gen_fresh henv hinv (le_refl _) q hq
      simp at hp
      rw [hp] at hqp
      rw [hqp, hgid]

theorem applyStep_addOperation_inv (env : Nat → IdSeed)
    (henv : IdGenerator.EnvInj env) (w w' : World) (t : OperationType)
    (accId : Id) (amount : Decimal) (currency : String) (catId : Id)
    (descr : String) (hinv : WorldInv env w)
    (h : applyStep env w (CoreStep.addOperation t accId amount currency catId descr) = .ok w') :
    WorldInv env w' := by
  unfold applyStep at h
  dsimp only at h
  match hm : Money.make amount currency with
  | .error e => rw [hm] at h; cases h
  | .ok m =>
  rw [hm] at h
  dsimp only at h
  unfold AddOperationCommand.execute AddOperationCommand.fresh
    AddOperationCommand.doExecute at h
  dsimp only at h
  rw [if_neg (by simp)] at h
  match hacc : w.accounts.findById accId with
  | none => rw [hacc] at h; cases h
  | some account =>
  rw [hacc] at h
  dsimp only at h
  match hopc : EntityFactory.createOperation t accId m catId descr w.clock
      (env w.nextId) w.clock with
  | .error e => rw [hopc] at h; cases h
  | .ok op =>
  rw [hopc] at h
  dsimp only at h
  rcases EntityFactory.createOperation_ok hopc with ⟨hoprec, hpos⟩
  have hbid : op.bankAccountId = accId := by rw [hoprec]
  have hopid : op.id = IdGenerator.generate "OP" (env w.nextId) := by rw [hoprec]
  have hmemacc := listFind?_mem hacc
  have hida : account.id = accId := hinv.accKey _ hmemacc
  have hbca : account.balance.currency = account.currency := hinv.balCur _ hmemacc
  unfold processOperation at h
  dsimp only at h
  rw [hbid, hacc] at h
  dsimp only at h
  match hda : (if op.isIncome = true then account.deposit op.amount w.clock
      else account.withdraw op.amount w.clock) with
  | .error e => rw [hda] at h; cases h
  | .ok account' =>
  rw [hda] at h
  dsimp only at h
  have hfacts : account' = { account with
        balance := Money.mk (account.balance.amount + signedAmount op) account.balance.currency,
        updatedAt := w.clock } ∧
      op.amount.currency = account.currency := by
    by_cases hinc : op.isIncome = true
    · rw [if_pos hinc] at hda
      rcases BankAccount.deposit_ok hda with ⟨hrec, hc1, _, _, _⟩
      refine ⟨?_, hc1⟩
      rw [hrec]
      unfold signedAmount
      rw [if_pos hinc]
    · rw [if_neg hinc] at hda
      rcases BankAccount.withdraw_ok hda with ⟨hrec, hc1, _, _, _, _, _, _⟩
      refine ⟨?_, hc1⟩
      rw [hrec]
      unfold signedAmount
      rw [if_neg hinc, ← sub_eq_add_neg]
  obtain ⟨hrec', hopcur⟩ := hfacts
  subst hrec'
  have hidacc : HasId.getId ({ account with
      balance := Money.mk (account.balance.amount + signedAmount op) account.balance.currency,
      updatedAt := w.clock } : BankAccount) = accId := hida
  have hupd : Repo.update w.accounts { account with
      balance := Money.mk (account.balance.amount + signedAmount op) account.balance.currency,
      updatedAt := w.clock } = .ok (w.accounts.save { account with
      balance := Money.mk (account.balance.amount + signedAmount op) account.balance.currency,
      updatedAt := w.clock }) := by
    apply Repo.update_of_found (x := account)
    rw [hidacc]
    exact hacc
  rw [hupd] at h
  dsimp only at h
  rw [Except.ok.injEq] at h
  subst h
  -- storage shapes
  have hopsave : ((w.operations.save op).storage) =
      w.operations.storage ++ [(HasId.getId op, op)] := by
    unfold Repo.save
    apply listUpsert_append
    intro p hp
    rw [show HasId.getId op = op.id from rfl, hopid]
    exact op_gen_fresh henv hinv (le_refl _) p hp
  have hkeys : ((w.accounts.save { account with
      balance := Money.mk (account.balance.amount + signedAmount op) account.balance.currency,
      updatedAt := w.clock }).storage.map Prod.fst) =
      w.accounts.storage.map Prod.fst := by
    unfold Repo.save
    apply keys_upsert_of_found
    rw [hidacc]
    rw [show (listFind? w.accounts.storage accId) = w.accounts.findById accId from rfl, hacc]
    simp
  have hmem' : ∀ p, p ∈ (w.accounts.save { account with
      balance := Money.mk (account.balance.amount + signedAmount op) account.balance.currency,
      updatedAt := w.clock }).storage →
      p = (accId, { account with
        balance := Money.mk (account.balance.amount + signedAmount op) account.balance.currency,
        updatedAt := w.clock }) ∨ (p ∈ w.accounts.storage ∧ ¬p.1 = accId) := by
    intro p hp
    unfold Repo.save at hp
    rw [hidacc] at hp
    exact mem_upsert_nodup hinv.accNodup hp
  refine ⟨?_, ?_, ?_, ?_, ?_, ?_, ?_, ?_, ?_⟩ <;> dsimp only
  · -- accKey
    intro p hp
    rcases hmem' p hp with hp | ⟨hp, _⟩
    · rw [hp]
      exact hida
    · exact hinv.accKey p hp
  · -- accFresh
    intro p hp
    rcases hmem' p hp with hp | ⟨hp, _⟩
    · rcases hinv.accFresh _ hmemacc with ⟨k, hk, hkk⟩
      rw [hp]
      exact ⟨k, by omega, hkk⟩
    · rcases hinv.accFresh p hp with ⟨k, hk, hkk⟩
      exact ⟨k, by omega, hkk⟩
  · -- accNodup
    rw [hkeys]
    exact hinv.accNodup
  · -- opFresh
    rw [hopsave]
    intro p hp
    rcases List.mem_append.mp hp with hp | hp
    · rcases hinv.opFresh p hp with ⟨k, hk, hkk⟩
      exact ⟨k, by omega, hkk⟩
    · simp at hp
      rw [hp]
      exact ⟨w.nextId, by omega, hopid⟩
  · -- opAccFresh
    rw [hopsave]
    intro p hp
    rcases List.mem_append.mp hp with hp | hp
    · rcases hinv.opAccFresh p hp with ⟨k, hk, hkk⟩
      exact ⟨k, by omega, hkk⟩
    · simp at hp
      rcases hinv.accFresh _ hmemacc with ⟨k, hk, hkk⟩
      rw [hp]
      dsimp only
      rw [hbid]
      exact ⟨k, by omega, hkk⟩
  · -- balCur
    intro p hp
    rcases hmem' p hp with hp | ⟨hp, _⟩
    · rw [hp]
      exact hbca
    · exact hinv.balCur p hp
  · -- curValid
    intro p hp
    rcases hmem' p hp with hp | ⟨hp, _⟩
    · rw [hp]
      exact hinv.curValid (accId, account) hmemacc
    · exact hinv.curValid p hp
  · -- balSum
    intro p hp
    rcases hmem' p hp with hp | ⟨hp, hpne⟩
    · rw [hp, hopsave]
      dsimp only
      rw [opSum_append_single, if_pos hbid]
      rw [hinv.balSum _ hmemacc]
    · rw [hopsave, opSum_append_single, if_neg (by rw [hbid]; exact fun hh => hpne hh.symm)]
      rw [add_zero]
      exact hinv.balSum p hp
  · -- opCur
    intro p hp q hq hqp
    rw [hopsave] at hq
    rcases hmem' p hp with hp | ⟨hp, hpne⟩
    · rcases List.mem_append.mp hq with hq | hq
      · rw [hp]
        dsimp only
        rw [hp] at hqp
        exact hinv.opCur _ hmemacc q hq hqp
      · simp at hq
        rw [hp, hq]
        dsimp only
        exact hopcur
    · rcases List.mem_append.mp hq with hq | hq
      · exact hinv.opCur p hp q hq hqp
      · simp at hq
        rw [hq] at hqp
        dsimp only at hqp
        rw [hbid] at hqp
        exact absurd hqp.symm hpne

theorem resolveTransferCategory_ok {env : Nat → IdSeed} {w : World}
    {cat : Category} {w' : World}
    (h : resolveTransferCategory env w = .ok (cat, w')) :
    w'.accounts = w.accounts ∧ w'.operations = w.operations ∧
    w.nextId ≤ w'.nextId ∧ w'.clock = w.clock := by
  unfold resolveTransferCategory at h
  match hf : w.categories.findByName "Перевод" with
  | some c =>
    rw [hf] at h
    simp at h
    rw [← h.2]
    exact ⟨rfl, rfl, le_refl _, rfl⟩
  | none =>
    rw [hf] at h
    dsimp only at h
    match hc : EntityFactory.createCategory CategoryType.expense "Перевод"
        "Переводы между счетами" (env w.nextId) with
    | .error e => rw [hc] at h; cases h
    | .ok c =>
      rw [hc] at h
      dsimp only at h
      rw [Except.ok.injEq, Prod.mk.injEq] at h
      rw [← h.2]
      refine ⟨rfl, rfl, ?_, rfl⟩
      show w.nextId ≤ w.nextId + 1
      omega

theorem applyStep_transfer_inv (env : Nat → IdSeed)
    (henv : IdGenerator.EnvInj env) (w w' : World) (fromId toId : Id)
    (amount : Decimal) (currency : String) (hinv : WorldInv env w)
    (h : applyStep env w (CoreStep.transferStep fromId toId amount currency) = .ok w') :
    WorldInv env w' := by
  unfold applyStep at h
  dsimp only at h
  match hm : Money.make amount currency with
  | .error e => rw [hm] at h; cases h
  | .ok m =>
  rw [hm] at h
  dsimp only at h
  unfold TransferCommand.execute TransferCommand.fresh TransferCommand.doExecute at h
  dsimp only at h
  rw [if_neg (by simp)] at h
  match hfa : w.accounts.findById fromId with
  | none => rw [hfa] at h; cases h
  | some fromAccount =>
  rw [hfa] at h
  match htb : w.accounts.findById toId with
  | none => rw [htb] at h; cases h
  | some toAccount =>
  rw [htb] at h
  dsimp only at h
  match htr : fromAccount.transfer toAccount m w.clock with
  | .error e => rw [htr] at h; cases h
  | .ok (fromAccount', toAccount') =>
  rw [htr] at h
  dsimp only at h
  rcases BankAccount.transfer_ok htr with ⟨hwd, hdp, hActF, hActT, hneid⟩
  rcases BankAccount.withdraw_ok hwd with ⟨hfrec, hc1, hc2, hposm, _, _, _, _⟩
  rcases BankAccount.deposit_ok hdp with ⟨htrec, hc1t, hc2t, _, _⟩
  rw [hfrec] at h
  rw [htrec] at h
  set f2 : BankAccount := { fromAccount with balance := Money.mk (fromAccount.balance.amount - m.amount) fromAccount.balance.currency, updatedAt := w.clock } with hf2def
  set t2 : BankAccount := { toAccount with balance := Money.mk (toAccount.balance.amount + m.amount) toAccount.balance.currency, updatedAt := w.clock } with ht2def
  have hmemfa := listFind?_mem hfa
  have hmemtb := listFind?_mem htb
  have hidf : fromAccount.id = fromId := hinv.accKey _ hmemfa
  have hidt : toAccount.id = toId := hinv.accKey _ hmemtb
  have hgidf : HasId.getId f2 = fromId := by rw [hf2def]; exact hidf
  have hgidt : HasId.getId t2 = toId := by rw [ht2def]; exact hidt
  have hkeysne : ¬toId = fromId := by
    rw [← hidf, ← hidt]
    intro hh
    exact hneid hh.symm
  have hupd1 : Repo.update w.accounts f2 = .ok (w.accounts.save f2) := by
    apply Repo.update_of_found (x := fromAccount)
    rw [hgidf]
    exact hfa
  rw [hupd1] at h
  dsimp only at h
  have hfind2 : (w.accounts.save f2).findById toId = some toAccount := by
    unfold Repo.save Repo.findById
    rw [hgidf]
    rw [listFind?_upsert_ne _ _ _ _ hkeysne]
    exact htb
  have hupd2 : Repo.update (w.accounts.save f2) t2 = .ok ((w.accounts.save f2).save t2) := by
    apply Repo.update_of_found (x := toAccount)
    rw [hgidt]
    exact hfind2
  rw [hupd2] at h
  dsimp only at h
  match hcat : resolveTransferCategory env { w with accounts := (w.accounts.save f2).save t2 } with
  | .error e => rw [hcat] at h; cases h
  | .ok (cat, w₂) =>
  rw [hcat] at h
  dsimp only at h
  rcases resolveTransferCategory_ok hcat with ⟨hacc₂, hops₂, hnid₂, hclk₂⟩
  dsimp only at hacc₂ hops₂ hnid₂ hclk₂
  match hop1 : EntityFactory.createOperation OperationType.expense fromId m cat.id "Перевод" w₂.clock (env w₂.nextId) w₂.clock with
  | .error e => rw [hop1] at h; cases h
  | .ok wop =>
  rw [hop1] at h
  dsimp only at h
  match hop2 : EntityFactory.createOperation OperationType.income toId m cat.id "Перевод" w₂.clock (env (w₂.nextId + 1)) w₂.clock with
  | .error e => rw [hop2] at h; cases h
  | .ok dop =>
  rw [hop2] at h
  dsimp only at h
  rw [Except.ok.injEq] at h
  subst h
  rcases EntityFactory.createOperation_ok hop1 with ⟨hwoprec, _⟩
  rcases EntityFactory.createOperation_ok hop2 with ⟨hdoprec, _⟩
  have hwbid : wop.bankAccountId = fromId := by rw [hwoprec]
  have hdbid : dop.bankAccountId = toId := by rw [hdoprec]
  have hwopid : wop.id = IdGenerator.generate "OP" (env w₂.nextId) := by rw [hwoprec]
  have hdopid : dop.id = IdGenerator.generate "OP" (env (w₂.nextId + 1)) := by rw [hdoprec]
  have hwsigned : signedAmount wop = -m.amount := by
    rw [hwoprec]
    rfl
  have hdsigned : signedAmount dop = m.amount := by
    rw [hdoprec]
    rfl
  have hwcur : wop.amount.currency = m.currency := by rw [hwoprec]
  have hdcur : dop.amount.currency = m.currency := by rw [hdoprec]
  have hops1 : ((w₂.operations.save wop).storage) = w.operations.storage ++ [(HasId.getId wop, wop)] := by
    show listUpsert w₂.operations.storage (HasId.getId wop) wop = _
    rw [hops₂]
    apply listUpsert_append
    intro p hp
    rw [show HasId.getId wop = wop.id from rfl, hwopid]
    exact op_gen_fresh henv hinv hnid₂ p hp
  have hops2 : (((w₂.operations.save wop).save dop).storage) = (w.operations.storage ++ [(HasId.getId wop, wop)]) ++ [(HasId.getId dop, dop)] := by
    show listUpsert ((w₂.operations.save wop).storage) (HasId.getId dop) dop = _
    rw [hops1]
    apply listUpsert_append
    intro p hp
    rcases List.mem_append.mp hp with hp | hp
    · rw [show HasId.getId dop = dop.id from rfl, hdopid]
      exact op_gen_fresh henv hinv (by omega) p hp
    · simp at hp
      rw [hp]
      dsimp only
      rw [show HasId.getId wop = wop.id from rfl, hwopid, show HasId.getId dop = dop.id from rfl, hdopid]
      intro hh
      have := henv "OP" w₂.nextId (w₂.nextId + 1) hh
      omega
  have hkeys1 : ((w.accounts.save f2).storage.map Prod.fst) = w.accounts.storage.map Prod.fst := by
    show ((listUpsert w.accounts.storage (HasId.getId f2) f2).map Prod.fst) = _
    rw [hgidf]
    apply keys_upsert_of_found
    rw [show (listFind? w.accounts.storage fromId) = w.accounts.findById fromId from rfl, hfa]
    simp
  have hnd1 : (((w.accounts.save f2).storage).map Prod.fst).Nodup := by
    rw [hkeys1]
    exact hinv.accNodup
  have hkeys2 : (((w.accounts.save f2).save t2).storage.map Prod.fst) = w.accounts.storage.map Prod.fst := by
    show ((listUpsert (w.accounts.save f2).storage (HasId.getId t2) t2).map Prod.fst) = _
    rw [hgidt]
    rw [← hkeys1]
    apply keys_upsert_of_found
    rw [show (listFind? (w.accounts.save f2).storage toId) = (w.accounts.save f2).findById toId from rfl, hfind2]
    simp
  have hmemE : ∀ p, p ∈ ((w.accounts.save f2).save t2).storage →
      p = (toId, t2) ∨ (p = (fromId, f2) ∧ ¬p.1 = toId) ∨
      (p ∈ w.accounts.storage ∧ ¬p.1 = fromId ∧ ¬p.1 = toId) := by
    intro p hp
    have hp2 : p ∈ listUpsert (w.accounts.save f2).storage (HasId.getId t2) t2 := hp
    rw [hgidt] at hp2
    rcases mem_upsert_nodup hnd1 hp2 with hp3 | ⟨hp3, hpt⟩
    · exact Or.inl hp3
    · have hp4 : p ∈ listUpsert w.accounts.storage (HasId.getId f2) f2 := hp3
      rw [hgidf] at hp4
      rcases mem_upsert_nodup hinv.accNodup hp4 with hp5 | ⟨hp5, hpf⟩
      · exact Or.inr (Or.inl ⟨hp5, hpt⟩)
      · exact Or.inr (Or.inr ⟨hp5, hpf, hpt⟩)
  have hfromfresh := hinv.accFresh _ hmemfa
  have htofresh := hinv.accFresh _ hmemtb
  have hbcf : fromAccount.balance.currency = fromAccount.currency := hinv.balCur _ hmemfa
  have hbct : toAccount.balance.currency = toAccount.currency := hinv.balCur _ hmemtb
  refine ⟨?_, ?_, ?_, ?_, ?_, ?_, ?_, ?_, ?_⟩ <;> dsimp only
  · -- accKey
    rw [hacc₂]
    intro p hp
    rcases hmemE p hp with hp | ⟨hp, _⟩ | ⟨hp, _, _⟩
    · rw [hp, ht2def]
      exact hidt
    · rw [hp, hf2def]
      exact hidf
    · exact hinv.accKey p hp
  · -- accFresh
    rw [hacc₂]
    intro p hp
    rcases hmemE p hp with hp | ⟨hp, _⟩ | ⟨hp, _, _⟩
    · rcases htofresh with ⟨k, hk, hkk⟩
      rw [hp]
      exact ⟨k, by omega, hkk⟩
    · rcases hfromfresh with ⟨k, hk, hkk⟩
      rw [hp]
      exact ⟨k, by omega, hkk⟩
    · rcases hinv.accFresh p hp with ⟨k, hk, hkk⟩
      exact ⟨k, by omega, hkk⟩
  · -- accNodup
    rw [hacc₂, hkeys2]
    exact hinv.accNodup
  · -- opFresh
    rw [hops2]
    intro p hp
    rcases List.mem_append.mp hp with hp | hp
    · rcases List.mem_append.mp hp with hp | hp
      · rcases hinv.opFresh p hp with ⟨k, hk, hkk⟩
        exact ⟨k, by omega, hkk⟩
      · simp at hp
        rw [hp]
        exact ⟨w₂.nextId, by omega, hwopid⟩
    · simp at hp
      rw [hp]
      exact ⟨w₂.nextId + 1, by omega, hdopid⟩
  · -- opAccFresh
    rw [hops2]
    intro p hp
    rcases List.mem_append.mp hp with hp | hp
    · rcases List.mem_append.mp hp with hp | hp
      · rcases hinv.opAccFresh p hp with ⟨k, hk, hkk⟩
        exact ⟨k, by omega, hkk⟩
      · simp at hp
        rcases hfromfresh with ⟨k, hk, hkk⟩
        rw [hp]
        dsimp only
        rw [hwbid]
        exact ⟨k, by omega, hkk⟩
    · simp at hp
      rcases htofresh with ⟨k, hk, hkk⟩
      rw [hp]
      dsimp only
      rw [hdbid]
      exact ⟨k, by omega, hkk⟩
  · -- balCur
    rw [hacc₂]
    intro p hp
    rcases hmemE p hp with hp | ⟨hp, _⟩ | ⟨hp, _, _⟩
    · rw [hp, ht2def]
      exact hbct
    · rw [hp, hf2def]
      exact hbcf
    · exact hinv.balCur p hp
  · -- curValid
    rw [hacc₂]
    intro p hp
    rcases hmemE p hp with hp | ⟨hp, _⟩ | ⟨hp, _, _⟩
    · rw [hp, ht2def]
      exact hinv.curValid (toId, toAccount) hmemtb
    · rw [hp, hf2def]
      exact hinv.curValid (fromId, fromAccount) hmemfa
    · exact hinv.curValid p hp
  · -- balSum
    rw [hacc₂]
    intro p hp
    rw [hops2]
    rcases hmemE p hp with hp | ⟨hp, _⟩ | ⟨hp, hpf, hpt⟩
    · rw [hp, ht2def]
      dsimp only
      rw [opSum_append_single, opSum_append_single]
      rw [if_pos hdbid, if_neg (by rw [hwbid]; exact fun hh => hkeysne hh.symm)]
      rw [hdsigned, add_zero]
      rw [hinv.balSum _ hmemtb]
    · rw [hp, hf2def]
      dsimp only
      rw [opSum_append_single, opSum_append_single]
      rw [if_pos hwbid, if_neg (by rw [hdbid]; exact hkeysne)]
      rw [hwsigned, add_zero]
      rw [hinv.balSum _ hmemfa]
      ring
    · rw [opSum_append_single, opSum_append_single]
      rw [if_neg (by rw [hwbid]; exact fun hh => hpf hh.symm)]
      rw [if_neg (by rw [hdbid]; exact fun hh => hpt hh.symm)]
      rw [add_zero, add_zero]
      exact hinv.balSum p hp
  · -- opCur
    rw [hacc₂]
    intro p hp q hq hqp
    rw [hops2] at hq
    rcases hmemE p hp with hp | ⟨hp, _⟩ | ⟨hp, hpf, hpt⟩
    · rcases List.mem_append.mp hq with hq | hq
      · rcases List.mem_append.mp hq with hq | hq
        · rw [hp, ht2def]
          rw [hp] at hqp
          exact hinv.opCur _ hmemtb q hq hqp
        · simp at hq
          rw [hp] at hqp
          rw [hq] at hqp
          dsimp only at hqp
          rw [hwbid] at hqp
          exact absurd hqp.symm hkeysne
      · simp at hq
        rw [hp, hq, ht2def]
        dsimp only
        rw [hdcur, hc1t]
    · rcases List.mem_append.mp hq with hq | hq
      · rcases List.mem_append.mp hq with hq | hq
        · rw [hp, hf2def]
          rw [hp] at hqp
          exact hinv.opCur _ hmemfa q hq hqp
        · simp at hq
          rw [hp, hq, hf2def]
          dsimp only
          rw [hwcur, hc1]
      · simp at hq
        rw [hp] at hqp
        rw [hq] at hqp
        dsimp only at hqp
        rw [hdbid] at hqp
        exact absurd hqp hkeysne
    · rcases List.mem_append.mp hq with hq | hq
      · rcases List.mem_append.mp hq with hq | hq
        · exact hinv.opCur p hp q hq hqp
        · simp at hq
          rw [hq] at hqp
          dsimp only at hqp
          rw [hwbid] at hqp
          exact absurd hqp.symm hpf
      · simp at hq
        rw [hq] at hqp
        dsimp only at hqp
        rw [hdbid] at hqp
        exact absurd hqp.symm hpt

/-- An account-creating step with zero initial balance (operations and
transfers always qualify). -/
def CoreStep.zeroInit : CoreStep → Prop
  | .createAccount _ a _ _ => a = 0
  | .addOperation _ _ _ _ _ _ => True
  | .transferStep _ _ _ _ => True

theorem applyStep_inv (env : Nat → IdSeed) (henv : IdGenerator.EnvInj env)
    (w w' : World) (s : CoreStep) (hz : s.zeroInit)
    (hinv : WorldInv env w) (h : applyStep env w s = .ok w') : WorldInv env w' := by
  cases s with
  | createAccount name a c num =>
    exact applyStep_createAccount_inv env henv w w' name a c num hz hinv h
  | addOperation t accId a c catId d =>
    exact applyStep_addOperation_inv env henv w w' t accId a c catId d hinv h
  | transferStep f t a c =>
    exact applyStep_transfer_inv env henv w w' f t a c hinv h

theorem applySteps_inv (env : Nat → IdSeed) (henv : IdGenerator.EnvInj env)
    (steps : List CoreStep) (w w' : World)
    (hz : ∀ s ∈ steps, s.zeroInit) (hinv : WorldInv env w)
    (h : applySteps env w steps = .ok w') : WorldInv env w' := by
  induction steps generalizing w with
  | nil =>
    unfold applySteps at h
    rw [Except.ok.injEq] at h
    subst h
    exact hinv
  | cons s rest ih =>
    unfold applySteps at h
    match hs : applyStep env w s with
    | .error e => rw [hs] at h; cases h
    | .ok w₁ =>
      rw [hs] at h
      exact ih w₁ (fun q hq => hz q (by simp [hq]))
        (applyStep_inv env henv w w₁ s (hz s (by simp)) hinv hs) h

/-! ### Claim C1 -/

/-- Claim C1, amended: for every account created **with zero initial
balance**, after any sequence of successful balance-changing operations
processed through the core (AddOperation income/expense — which is also
what the facade's deposit/withdraw build — and transfer) **under an
entropy oracle whose generated ids never collide** (the real
timestamp-plus-random-hex generator does not guarantee this; a collision
would silently overwrite an earlier operation record),
`checkAccountBalance` succeeds and reports `hasDiscrepancy == false`,
with the calculated balance equal to the stored balance.  As stated the
claim is false: `checkAccountBalance` folds only the operation log, and
account creation records no initial-balance operation, so any nonzero
initial balance is a permanent discrepancy (see the counterexample). -/
theorem c1_reconciliation_after_core_ops (env : Nat → IdSeed)
    (henv : IdGenerator.EnvInj env) (steps : List CoreStep) (w : World)
    (hz : ∀ s ∈ steps, s.zeroInit)
    (h : applySteps env World.empty steps = .ok w)
    (aid : Id) (acc : BankAccount)
    (hacc : w.accounts.findById aid = some acc) :
    ∃ r, checkAccountBalance w aid = .ok r ∧ r.hasDiscrepancy = false ∧
      r.balance = acc.balance ∧
      r.calculatedBalance.amount = acc.balance.amount := by
  rcases checkAccountBalance_noDiscrepancy env w
      (applySteps_inv env henv steps World.empty w hz (World.empty_inv env) h)
      aid acc hacc with
    ⟨r, h1, h2, h3, h4, h5⟩
  exact ⟨r, h1, h2, h3, h4⟩

theorem applySteps_cons_ok (env : Nat → IdSeed) (w w' : World) (s : CoreStep)
    (rest : List CoreStep) (h : applyStep env w s = .ok w') :
    applySteps env w (s :: rest) = applySteps env w' rest := by
  conv_lhs => unfold applySteps
  rw [h]

/-- The spec's scenario, verbatim: create "Main" with 100000 RUB, add an
Income of 50000 and an Expense of 5000, all through the command layer,
run under the concrete oracle `idTestEnv` (call 0 yields the account id
`ACC-0-00000000`, calls 1 and 2 the operation ids `OP-1-00000000` and
`OP-2-00000000`). -/
def c1BadSteps : List CoreStep :=
  [ CoreStep.createAccount "Main" 100000 "RUB" "",
    CoreStep.addOperation OperationType.income "ACC-0-00000000" 50000 "RUB" "CAT-salary" "Salary",
    CoreStep.addOperation OperationType.expense "ACC-0-00000000" 5000 "RUB" "CAT-food" "Food" ]

/-- The "Main" account with a given stored balance, as both scenarios
produce it under `idTestEnv`. -/
def c1Acc (b : Decimal) : BankAccount :=
  ⟨"ACC-0-00000000", "Main", ⟨b, "RUB"⟩, "", true, 0, 0, "RUB"⟩

/-- The 50000 RUB salary income operation of the scenarios. -/
def c1Op1 : Operation :=
  ⟨"OP-1-00000000", OperationType.income, "ACC-0-00000000", ⟨50000, "RUB"⟩, 0, "Salary",
   "CAT-salary", 0, 0, false, ""⟩

/-- The 5000 RUB food expense operation of the scenarios. -/
def c1Op2 : Operation :=
  ⟨"OP-2-00000000", OperationType.expense, "ACC-0-00000000", ⟨5000, "RUB"⟩, 0, "Food",
   "CAT-food", 0, 0, false, ""⟩

/-- The world after step 1 of the spec's scenario. -/
def c1BadW1 : World := ⟨⟨[("ACC-0-00000000", c1Acc 100000)]⟩, ⟨[]⟩, ⟨[]⟩, 1, 0⟩

/-- The world after step 2 of the spec's scenario. -/
def c1BadW2 : World :=
  ⟨⟨[("ACC-0-00000000", c1Acc 150000)]⟩, ⟨[]⟩, ⟨[("OP-1-00000000", c1Op1)]⟩, 2, 0⟩

/-- The world after running the spec's scenario (stored balance 145000,
operation log holding only the 50000 income and the 5000 expense). -/
def c1BadWorld : World :=
  ⟨⟨[("ACC-0-00000000", c1Acc 145000)]⟩, ⟨[]⟩,
   ⟨[("OP-1-00000000", c1Op1), ("OP-2-00000000", c1Op2)]⟩, 3, 0⟩

theorem c1BadStep1 :
    applyStep idTestEnv World.empty (CoreStep.createAccount "Main" 100000 "RUB" "") =
      .ok c1BadW1 := rfl

theorem c1BadStep2 :
    applyStep idTestEnv c1BadW1
      (CoreStep.addOperation OperationType.income "ACC-0-00000000" 50000 "RUB" "CAT-salary" "Salary") =
      .ok c1BadW2 := by
  unfold c1BadW2 c1Acc
  conv_rhs => rw [show (150000 : Decimal) = 100000 + 50000 by norm_num]
  rfl

theorem c1BadStep3 :
    applyStep idTestEnv c1BadW2
      (CoreStep.addOperation OperationType.expense "ACC-0-00000000" 5000 "RUB" "CAT-food" "Food") =
      .ok c1BadWorld := by
  unfold c1BadWorld c1Acc
  conv_rhs => rw [show (145000 : Decimal) = 150000 - 5000 by norm_num]
  rfl

theorem c1BadRun : applySteps idTestEnv World.empty c1BadSteps = .ok c1BadWorld := by
  unfold c1BadSteps
  rw [applySteps_cons_ok _ _ _ _ _ c1BadStep1,
      applySteps_cons_ok _ _ _ _ _ c1BadStep2,
      applySteps_cons_ok _ _ _ _ _ c1BadStep3]
  rfl

/-- Counterexample to claim C1 as stated: running the spec's own scenario
through the command layer leaves the stored balance at 145000 while the
reconciliation service calculates 45000 from the operation log (the
initial 100000 is represented by no operation), so it reports
`hasDiscrepancy == true` and `calculatedBalance == 45000`, not 145000 and
`false`. -/
theorem c1_reconciliation_counterexample :
    applySteps idTestEnv World.empty c1BadSteps = .ok c1BadWorld ∧
    ∃ r, checkAccountBalance c1BadWorld "ACC-0-00000000" = .ok r ∧
      r.balance.amount = 145000 ∧ r.calculatedBalance.amount = 45000 ∧
      r.hasDiscrepancy = true := by
  refine ⟨c1BadRun,
    (checkAccountBalance c1BadWorld "ACC-0-00000000").toOption.getD default,
    rfl, rfl, ?_, ?_⟩
  · show (0 : Decimal) + 50000 - 5000 = 45000
    norm_num
  · show (!Money.equals (Money.mk 145000 "RUB")
      (Money.mk ((0 : Decimal) + 50000 - 5000) "RUB")) = true
    unfold Money.equals
    have hlt : ¬(|(145000 : Decimal) - ((0 : Decimal) + 50000 - 5000)| < moneyEps) := by
      rw [show (145000 : Decimal) - ((0 : Decimal) + 50000 - 5000) = 100000 by norm_num]
      rw [abs_of_pos (by norm_num)]
      unfold moneyEps
      norm_num
    rw [decide_eq_false hlt]
    rfl

/-- The zero-initial-balance variant of the scenario used as the C1
witness. -/
def c1ZeroSteps : List CoreStep :=
  [ CoreStep.createAccount "Main" 0 "RUB" "",
    CoreStep.addOperation OperationType.income "ACC-0-00000000" 50000 "RUB" "CAT-salary" "Salary",
    CoreStep.addOperation OperationType.expense "ACC-0-00000000" 5000 "RUB" "CAT-food" "Food" ]

/-- The world after step 1 of the zero-initial-balance scenario. -/
def c1ZeroW1 : World := ⟨⟨[("ACC-0-00000000", c1Acc 0)]⟩, ⟨[]⟩, ⟨[]⟩, 1, 0⟩

/-- The world after step 2 of the zero-initial-balance scenario. -/
def c1ZeroW2 : World :=
  ⟨⟨[("ACC-0-00000000", c1Acc 50000)]⟩, ⟨[]⟩, ⟨[("OP-1-00000000", c1Op1)]⟩, 2, 0⟩

/-- The world after running the zero-initial-balance scenario. -/
def c1ZeroWorld : World :=
  ⟨⟨[("ACC-0-00000000", c1Acc 45000)]⟩, ⟨[]⟩,
   ⟨[("OP-1-00000000", c1Op1), ("OP-2-00000000", c1Op2)]⟩, 3, 0⟩

/-- The "Main" account of the zero-initial-balance scenario. -/
def c1ZeroAccount : BankAccount := c1Acc 45000

theorem c1ZeroStep1 :
    applyStep idTestEnv World.empty (CoreStep.createAccount "Main" 0 "RUB" "") =
      .ok c1ZeroW1 := rfl

theorem c1ZeroStep2 :
    applyStep idTestEnv c1ZeroW1
      (CoreStep.addOperation OperationType.income "ACC-0-00000000" 50000 "RUB" "CAT-salary" "Salary") =
      .ok c1ZeroW2 := by
  unfold c1ZeroW2 c1Acc
  conv_rhs => rw [show (50000 : Decimal) = 0 + 50000 by norm_num]
  rfl

theorem c1ZeroStep3 :
    applyStep idTestEnv c1ZeroW2
      (CoreStep.addOperation OperationType.expense "ACC-0-00000000" 5000 "RUB" "CAT-food" "Food") =
      .ok c1ZeroWorld := by
  unfold c1ZeroWorld c1Acc
  conv_rhs => rw [show (45000 : Decimal) = 50000 - 5000 by norm_num]
  rfl

theorem c1ZeroRun : applySteps idTestEnv World.empty c1ZeroSteps = .ok c1ZeroWorld := by
  unfold c1ZeroSteps
  rw [applySteps_cons_ok _ _ _ _ _ c1ZeroStep1,
      applySteps_cons_ok _ _ _ _ _ c1ZeroStep2,
      applySteps_cons_ok _ _ _ _ _ c1ZeroStep3]
  rfl

/-- Witness for the amended C1 at the concrete zero-initial scenario
under the collision-free oracle `idTestEnv`. -/
theorem c1_reconciliation_after_core_ops_witness :
    ∃ r, checkAccountBalance c1ZeroWorld "ACC-0-00000000" = .ok r ∧
      r.hasDiscrepancy = false ∧ r.balance = c1ZeroAccount.balance ∧
      r.calculatedBalance.amount = c1ZeroAccount.balance.amount :=
  c1_reconciliation_after_core_ops idTestEnv idTestEnv_inj c1ZeroSteps c1ZeroWorld
    (by
      intro s hs
      simp only [c1ZeroSteps, List.mem_cons, List.not_mem_nil, or_false] at hs
      rcases hs with h | h | h <;> subst h <;> first | exact rfl | trivial)
    c1ZeroRun "ACC-0-00000000" c1ZeroAccount rfl

end Financial
